import Mathlib

/-!
Shallow embedding of the ReSubPlot repository (src/ReSubPlot/layout.py and
src/ReSubPlot/plotting_funcs.py).

The repository re-composes already-rendered matplotlib figures into a single
grid figure.  Numbers drawn on figures are modelled by rationals, matplotlib
objects by explicit structures, and fallible Python operations (list indexing,
numpy reshape, numpy reductions on empty arrays, invalid keyword arguments)
by the Except monad.  Each Lean definition is translated from the
corresponding Python function and carries its source name.
-/

/-- A matplotlib color argument: either a named/string color (as returned by
Line2D.get_color or written literally in the source) or an RGBA value (as
returned by the get_facecolor / get_colors family of getters). -/
inductive PyColor where
  | named (s : String)
  | rgba (v : List ℚ)
deriving DecidableEq, Repr

/-- An axes position rectangle [x, y, width, height] in figure coordinates. -/
structure Rect where
  x : ℚ
  y : ℚ
  w : ℚ
  h : ℚ
deriving DecidableEq, Repr

/-- A two-point segment as produced by LineCollection.get_segments; the
source destructures every segment as ((x0, y0), (x1, y1)). -/
abbrev Segment : Type := (ℚ × ℚ) × (ℚ × ℚ)

/-- A matplotlib Line2D: paired x/y data (get_xdata and get_ydata always have
equal length, so the data is stored as one list of points) plus the visual
properties read by the source. -/
structure Line2D where
  data : List (ℚ × ℚ)
  color : String
  linestyle : String
  linewidth : ℚ
  label : String
deriving DecidableEq, Repr

/-- The x data of a line, as returned by get_xdata. -/
def Line2D.xdata (l : Line2D) : List ℚ := l.data.map Prod.fst

/-- The y data of a line, as returned by get_ydata. -/
def Line2D.ydata (l : Line2D) : List ℚ := l.data.map Prod.snd

/-- A matplotlib LineCollection with the getters used by the source. -/
structure LineColl where
  segments : List Segment
  colors : List (List ℚ)
  linewidths : List ℚ
  linestyles : List String
  alpha : Option ℚ
  label : String
deriving DecidableEq, Repr

/-- A matplotlib PolyCollection (fill_between result) with the getters used
by recover_fill_between. -/
structure PolyColl where
  paths : List (List (ℚ × ℚ))
  facecolors : List (List ℚ)
  alpha : Option ℚ
deriving DecidableEq, Repr

/-- A matplotlib PathCollection (scatter result) with the getters used by
recover_scatter. -/
structure PathColl where
  offsets : List (ℚ × ℚ)
  sizes : List ℚ
  facecolors : List (List ℚ)
  edgecolors : List (List ℚ)
  alpha : Option ℚ
  label : String
deriving DecidableEq, Repr

/-- A matplotlib Rectangle patch (bar) with the getters used by
recover_barplot. -/
structure BarRect where
  x : ℚ
  y : ℚ
  width : ℚ
  height : ℚ
  facecolor : List ℚ
  edgecolor : List ℚ
  linewidth : ℚ
  linestyle : String
  alpha : Option ℚ
deriving DecidableEq, Repr

/-- A legend handle of a source axis (an entry of
get_legend_handles_labels()[0]); recover_barplot reads its facecolor when it
has one (the hasattr check in the source). -/
structure OldHandle where
  facecolor : Option (List ℚ)
deriving DecidableEq, Repr

/-- An axis of a source figure, holding the drawn primitives and axis state
that the recover_* functions read.  ax.collections is split by the isinstance
filters the source applies to it (LineCollection / PolyCollection /
PathCollection); containersBarlines holds c.lines[-1] (the barlinecols list)
for each errorbar container c, as read by recover_errorbars.  joinedX/joinedY
state whether this axis is joined to the figure's first axis by
get_shared_x_axes()/get_shared_y_axes(). -/
structure OldAxes where
  lines : List Line2D
  lineColls : List LineColl
  polyColls : List PolyColl
  pathColls : List PathColl
  containersBarlines : List (List LineColl)
  patches : List BarRect
  xlim : ℚ × ℚ
  ylim : ℚ × ℚ
  xlabel : String
  ylabel : String
  title : String
  xticks : List ℚ
  xticklabels : List String
  legendHL : List (OldHandle × String)
  position : Rect
  joinedX : Bool
  joinedY : Bool
deriving DecidableEq, Repr

/-- A source figure: its axes list and its size in inches. -/
structure OldFig where
  axes : List OldAxes
  size : ℚ × ℚ
deriving DecidableEq, Repr

instance : Inhabited OldFig := ⟨{ axes := [], size := (0, 0) }⟩

/-- An artist drawn on a new axis by one of the recover_* functions.  Each
constructor corresponds to one drawing call in the source. -/
inductive Artist where
  | plotLine (xdata ydata : List ℚ) (label color linestyle : String)
  | axhline (y : ℚ) (color : PyColor) (linestyle : String) (linewidth : ℚ)
      (alpha : Option ℚ) (label : String)
  | axvline (x : ℚ) (color : PyColor) (linestyle : String) (linewidth : ℚ)
      (alpha : Option ℚ) (label : String)
  | lineColl (segs : List Segment) (colors : List PyColor) (linewidths : List ℚ)
      (linestyles : List String) (alpha : Option ℚ) (label : String)
  | vlines (x ymin ymax : ℚ) (color : PyColor) (linestyle : String)
      (linewidth : ℚ) (alpha : Option ℚ) (label : String)
  | fillBetween (x y1 y2 : List ℚ) (color : List ℚ) (alpha : Option ℚ)
  | scatter (x y sizes : List ℚ) (c : Option (List (List ℚ)))
      (edge : Option (List (List ℚ))) (alpha : Option ℚ) (label : Option String)
  | bar (x height width : ℚ) (color : List ℚ) (edge : PyColor) (linewidth : ℚ)
      (linestyle : String) (alpha : Option ℚ) (label : String)
deriving DecidableEq, Repr

/-- The legend label of an artist, as matplotlib stores it (artists created
without a label carry a label that the legend machinery ignores). -/
def Artist.labelStr : Artist → String
  | .plotLine _ _ l _ _ => l
  | .axhline _ _ _ _ _ l => l
  | .axvline _ _ _ _ _ l => l
  | .lineColl _ _ _ _ _ l => l
  | .vlines _ _ _ _ _ _ _ l => l
  | .fillBetween _ _ _ _ _ => "_nolegend_"
  | .scatter _ _ _ _ _ _ l => l.getD "_nolegend_"
  | .bar _ _ _ _ _ _ _ _ l => l

/-- A legend handle reference: either a handle of a source axis (stored by
recover_legend) or an artist of the new figure (stored by
legends_only_last_subplot). -/
abbrev HandleRef : Type := OldHandle ⊕ Artist

/-- An axis of the composed figure.  Fields default to the state of a fresh
matplotlib subplot axis.  xlocator none models the default AutoLocator and
some ts a FixedLocator (set_xticks); xformatter/yformatter none model the
default formatter and some ls a FixedFormatter (set_xticklabels /
set_yticklabels). -/
structure NewAxes where
  artists : List Artist := []
  xlabel : String := ""
  ylabel : String := ""
  title : String := ""
  titleFontsize : Option ℚ := none
  xlocator : Option (List ℚ) := none
  xformatter : Option (List String) := none
  yformatter : Option (List String) := none
  xlim : ℚ × ℚ := (0, 1)
  ylim : ℚ × ℚ := (0, 1)
  position : Rect := ⟨0, 0, 1, 1⟩
  legend : Option (List (HandleRef × String)) := none
deriving DecidableEq, Repr

instance : Inhabited NewAxes := ⟨{}⟩

/-- The composed figure: its size and the list of its axes in creation order
(fig.axes).  ylabelAlignGroups records the axis groups registered by
fig.align_ylabels. -/
structure Figure where
  figsize : ℚ × ℚ
  axes : List NewAxes := []
  ylabelAlignGroups : List (List Nat) := []
deriving DecidableEq, Repr

/-- The grid index returned next to the composed figure: one list of axis
indices per subplot cell. -/
abbrev Tens : Type := List (List (List Nat))

/-- The sharex argument of master_plot: a Python bool or string. -/
inductive ShareX where
  | b (v : Bool)
  | s (v : String)
deriving DecidableEq, Repr

/-! ## Python/numpy helpers -/

/-- Python list indexing with a non-negative index: raises IndexError when
out of range. -/
def pyGet {α : Type} (l : List α) (i : Nat) : Except String α :=
  match l[i]? with
  | some a => .ok a
  | none => .error "IndexError: list index out of range"

/-- np.min of a list: raises on an empty list. -/
def npMin : List ℚ → Except String ℚ
  | [] => .error "ValueError: zero-size array to reduction operation minimum which has no identity"
  | x :: xs => .ok (xs.foldl min x)

/-- np.max of a list: raises on an empty list. -/
def npMax : List ℚ → Except String ℚ
  | [] => .error "ValueError: zero-size array to reduction operation maximum which has no identity"
  | x :: xs => .ok (xs.foldl max x)

/-- Python slice l[a:b] for non-negative bounds (with the usual clamping). -/
def pySlice {α : Type} (l : List α) (a b : Nat) : List α :=
  (l.drop a).take (b - a)

/-- Splits a list into consecutive chunks of length n; the fuel argument (the
list length at the top call) makes the recursion structural.  Used to model
np.reshape(-1, n) for n > 0. -/
def chunksGo {α : Type} (n : Nat) : Nat → List α → List (List α)
  | _, [] => []
  | 0, _ :: _ => []
  | fuel + 1, x :: xs => (x :: xs).take n :: chunksGo n fuel ((x :: xs).drop n)

/-- Consecutive chunks of length n of a list (row-major reflow). -/
def chunks {α : Type} (n : Nat) (l : List α) : List (List α) :=
  chunksGo n l.length l

/-- np.reshape(-1, n) of a flat array: fails when n = 0 or when the size is
not a multiple of n, otherwise reflows row-major into rows of length n. -/
def npReshapeNeg1 {α : Type} (flat : List α) (n : Nat) : Except String (List (List α)) :=
  if n = 0 ∨ flat.length % n ≠ 0 then
    .error "ValueError: cannot reshape array"
  else
    .ok (chunks n flat)

/-- np.array applied to a nested Python list: raises on ragged (inhomogeneous)
input, otherwise reports the 2-D shape. -/
def npArray2dShape {α : Type} (m : List (List α)) : Except String (Nat × Nat) :=
  match m with
  | [] => .ok (0, 0)
  | r :: rs =>
    if rs.all (fun row => row.length = r.length) then
      .ok (m.length, r.length)
    else
      .error "ValueError: setting an array element with a sequence (inhomogeneous shape)"

/-- np.array(mat).shape[1] for a nested list: the ragged case raises in
np.array, the empty case builds a 1-D array so that shape[1] raises. -/
def npMatShape2 (mat : List (List Nat)) : Except String (Nat × Nat) :=
  match mat with
  | [] => .error "IndexError: tuple index out of range"
  | r :: rs =>
    if rs.all (fun row => row.length = r.length) then
      .ok (mat.length, r.length)
    else
      .error "ValueError: setting an array element with a sequence (inhomogeneous shape)"

/-- zip(*rows) as used by sharex_cols: transposes, truncating to the shortest
row. -/
def zipTranspose {α : Type} (rows : List (List α)) : List (List α) :=
  match rows with
  | [] => []
  | r :: rs =>
    (List.range ((rs.map List.length).foldl min r.length)).map
      (fun i => rows.filterMap (fun row => row[i]?))

/-! ## layout.py: primitive recovery -/

/-- Translation of sharing_axis (layout.py).  The source compares old_ax with
old_fig.axes[0] (isFirst) and asks the first axis's shared-x/shared-y
groupers whether they join it with old_ax (joinedX/joinedY).  The result
reports how many twin axes the twinx()/twiny() calls appended to the new
figure and whether new_ax ends up being the original subplot axis; when it is
not, new_ax is the last twin created.  When neither sharing test fires on a
non-first axis, the local variable new_ax is never assigned and the final
return raises. -/
structure SharingOutcome where
  twinsCreated : Nat
  usesNewAxOg : Bool
deriving DecidableEq, Repr

def sharing_axis (isFirst joinedX joinedY : Bool) : Except String SharingOutcome :=
  if isFirst then
    .ok ⟨0, true⟩
  else if joinedX && joinedY then
    .ok ⟨2, false⟩
  else if joinedX then
    .ok ⟨1, false⟩
  else if joinedY then
    .ok ⟨1, false⟩
  else
    .error "UnboundLocalError: local variable new_ax referenced before assignment"

/-- The artist drawn by recover_Line2D for one line: a two-point line with
constant y becomes an axhline at that y, otherwise a two-point line with
constant x becomes an axvline at that x, and any other line is re-plotted
with plot(), keeping data, label, color and linestyle. -/
def redrawLine (l : Line2D) : Artist :=
  match l.data with
  | [p, q] =>
    if p.2 = q.2 then
      .axhline p.2 (.named l.color) l.linestyle l.linewidth none l.label
    else if p.1 = q.1 then
      .axvline p.1 (.named l.color) l.linestyle l.linewidth none l.label
    else
      .plotLine l.xdata l.ydata l.label l.color l.linestyle
  | _ => .plotLine l.xdata l.ydata l.label l.color l.linestyle

/-- Translation of recover_Line2D (layout.py): draws one artist per line of
the old axis, in order. -/
def recover_Line2D (oldAx : OldAxes) (na : NewAxes) : NewAxes :=
  { na with artists := na.artists ++ oldAx.lines.map redrawLine }

/-- The per-segment visual properties computed inside recover_hlines_vlines
and recover_errorbars: colors[i % len] when non-empty else black, and
likewise for widths and styles. -/
def segColor (colors : List (List ℚ)) (i : Nat) : PyColor :=
  if colors.length > 0 then .rgba (colors.getD (i % colors.length) []) else .named "black"

def segWidth (linewidths : List ℚ) (i : Nat) : ℚ :=
  if linewidths.length > 0 then linewidths.getD (i % linewidths.length) 0 else 1

def segStyle (linestyles : List String) (i : Nat) : String :=
  if linestyles.length > 0 then linestyles.getD (i % linestyles.length) "" else "solid"

/-- Model of the call Axes.axhline(...) : the matplotlib signature is
axhline(y=0, xmin=0, xmax=1, **kwargs) and extra keyword arguments must be
Line2D properties, so a keyword argument named x is rejected. -/
def axhlineCall (na : NewAxes) (y : Option ℚ) (xKwarg : Option ℚ) (color : PyColor)
    (linestyle : String) (linewidth : ℚ) (alpha : Option ℚ) (label : String) :
    Except String NewAxes :=
  if xKwarg.isSome then
    .error "AttributeError: Line2D object has no property x"
  else
    .ok { na with artists :=
      na.artists ++ [.axhline (y.getD 0) color linestyle linewidth alpha label] }

/-- One segment of recover_hlines_vlines: a full-height constant-x segment
becomes an axvline; a full-width constant-y segment is passed to axhline with
the keyword argument x (and no y), which raises; anything else is kept as a
one-segment LineCollection. -/
def hvSegment (xmin xmax ymin ymax : ℚ) (coll : LineColl) (i : Nat) (seg : Segment)
    (na : NewAxes) : Except String NewAxes :=
  let x0 := seg.1.1
  let y0 := seg.1.2
  let x1 := seg.2.1
  let y1 := seg.2.2
  let color := segColor coll.colors i
  let lw := segWidth coll.linewidths i
  let ls := segStyle coll.linestyles i
  let showLabel := if i = 0 then coll.label else "_nolegend_"
  if x0 = x1 ∧ y0 = ymin ∧ y1 = ymax then
    .ok { na with artists :=
      na.artists ++ [.axvline x0 color ls lw coll.alpha showLabel] }
  else if y0 = y1 ∧ x0 = xmin ∧ x1 = xmax then
    axhlineCall na none (some x0) color ls lw coll.alpha showLabel
  else
    .ok { na with artists :=
      na.artists ++ [.lineColl [seg] [color] [lw] [ls] coll.alpha showLabel] }

/-- The enumerated segment loop of recover_hlines_vlines for one collection. -/
def hvSegments (xmin xmax ymin ymax : ℚ) (coll : LineColl) :
    Nat → List Segment → NewAxes → Except String NewAxes
  | _, [], na => .ok na
  | i, seg :: rest, na => do
    let na' ← hvSegment xmin xmax ymin ymax coll i seg na
    hvSegments xmin xmax ymin ymax coll (i + 1) rest na'

/-- Translation of recover_hlines_vlines (layout.py): handles every
LineCollection of the old axis segment by segment. -/
def recover_hlines_vlines (oldAx : OldAxes) (na : NewAxes) : Except String NewAxes :=
  let xmin := oldAx.xlim.1
  let xmax := oldAx.xlim.2
  let ymin := oldAx.ylim.1
  let ymax := oldAx.ylim.2
  oldAx.lineColls.foldlM (fun ax coll => hvSegments xmin xmax ymin ymax coll 0 coll.segments ax) na

/-- One segment of recover_errorbars: a constant-x segment becomes vlines,
anything else is kept as a one-segment LineCollection. -/
def ebSegment (coll : LineColl) (i : Nat) (seg : Segment) (na : NewAxes) : NewAxes :=
  let x0 := seg.1.1
  let y0 := seg.1.2
  let x1 := seg.2.1
  let y1 := seg.2.2
  let color := segColor coll.colors i
  let lw := segWidth coll.linewidths i
  let ls := segStyle coll.linestyles i
  let showLabel := if i = 0 then coll.label else "_nolegend_"
  if x0 = x1 then
    { na with artists :=
      na.artists ++ [.vlines x0 y0 y1 color ls lw coll.alpha showLabel] }
  else
    { na with artists :=
      na.artists ++ [.lineColl [seg] [color] [lw] [ls] coll.alpha showLabel] }

def ebSegments (coll : LineColl) : Nat → List Segment → NewAxes → NewAxes
  | _, [], na => na
  | i, seg :: rest, na => ebSegments coll (i + 1) rest (ebSegment coll i seg na)

/-- Translation of recover_errorbars (layout.py): flattens c.lines[-1] over
the old axis's errorbar containers and handles each collection segment by
segment. -/
def recover_errorbars (oldAx : OldAxes) (na : NewAxes) : NewAxes :=
  (oldAx.containersBarlines.flatten).foldl (fun ax coll => ebSegments coll 0 coll.segments ax) na

/-- One path of recover_fill_between: slices the polygon vertices back into
x, y1 and y2 arrays and redraws with fill_between, using the first facecolor
of the collection (IndexError when there is none). -/
def fbPath (poly : PolyColl) (verts : List (ℚ × ℚ)) (na : NewAxes) : Except String NewAxes := do
  let xPre := verts.map Prod.fst
  let x := pySlice xPre 1 (xPre.length / 2)
  let y := verts.map Prod.snd
  let y1 := pySlice y 1 (y.length / 2)
  let y2 := (pySlice y (y.length / 2 + 1) (y.length - 1)).reverse
  let color ← pyGet poly.facecolors 0
  .ok { na with artists := na.artists ++ [.fillBetween x y1 y2 color poly.alpha] }

/-- Translation of recover_fill_between (layout.py). -/
def recover_fill_between (oldAx : OldAxes) (na : NewAxes) : Except String NewAxes :=
  oldAx.polyColls.foldlM
    (fun ax poly => poly.paths.foldlM (fun ax2 verts => fbPath poly verts ax2) ax) na

/-- Translation of recover_scatter (layout.py): one scatter call per
PathCollection of the old axis. -/
def recover_scatter (oldAx : OldAxes) (na : NewAxes) : NewAxes :=
  { na with artists := na.artists ++ oldAx.pathColls.map (fun sc =>
      .scatter (sc.offsets.map Prod.fst) (sc.offsets.map Prod.snd) sc.sizes
        (if sc.facecolors.length > 0 then some sc.facecolors else none)
        (if sc.edgecolors.length > 0 then some sc.edgecolors else none)
        sc.alpha
        (if sc.label ≠ "_nolegend_" then some sc.label else none)) }

/-- A bar drawn by recover_barplot before the label-matching loop runs. -/
structure NewBar where
  x : ℚ
  height : ℚ
  width : ℚ
  color : List ℚ
  edge : PyColor
  linewidth : ℚ
  linestyle : String
  alpha : Option ℚ
  label : String := "_nolegend_"
deriving DecidableEq, Repr

/-- np.allclose on two color arrays: exact comparison in the rational model;
numpy raises when the shapes cannot be broadcast. -/
def npAllclose (a b : List ℚ) : Except String Bool :=
  if a.length = b.length then .ok (decide (a = b))
  else .error "ValueError: operands could not be broadcast together"

/-- The inner loop of the label matching in recover_barplot: walks the new
bars, labels the first one whose facecolor matches, and stops.  When the
handle has no facecolor the comparison np.allclose(.., None) raises as soon
as a bar is compared. -/
def assignFirstBar (bars : List NewBar) (fc : Option (List ℚ)) (lab : String) :
    Except String (List NewBar) :=
  match bars with
  | [] => .ok []
  | b :: bs =>
    match fc with
    | none => .error "TypeError: np.allclose received None"
    | some t => do
      if (← npAllclose b.color t) then
        .ok ({ b with label := lab } :: bs)
      else
        .ok (b :: (← assignFirstBar bs fc lab))

/-- The outer label-matching loop of recover_barplot over the old legend
handles. -/
def assignBarLabels (bars : List NewBar) : List (OldHandle × String) → Except String (List NewBar)
  | [] => .ok bars
  | (h, lab) :: rest => do
    assignBarLabels (← assignFirstBar bars h.facecolor lab) rest

/-- Translation of recover_barplot (layout.py): filters the Rectangle
patches, normalizes fully transparent 4-component edge colors to the string
color none, replots every bar unlabeled, then assigns labels by matching old
legend handle facecolors. -/
def recover_barplot (oldAx : OldAxes) (na : NewAxes) : Except String NewAxes := do
  let bars := oldAx.patches.filter (fun b => ¬ (b.y = 0 ∧ b.height = oldAx.ylim.2))
  let newBars : List NewBar := bars.map (fun b =>
    { x := b.x, height := b.height, width := b.width, color := b.facecolor,
      edge := if b.edgecolor.length = 4 ∧ (b.edgecolor.getLast?.getD 1 : ℚ) = 0 then
          .named "none"
        else
          .rgba b.edgecolor,
      linewidth := b.linewidth, linestyle := b.linestyle, alpha := b.alpha })
  let labeled ← assignBarLabels newBars oldAx.legendHL
  .ok { na with artists := na.artists ++ labeled.map (fun b =>
    .bar b.x b.height b.width b.color b.edge b.linewidth b.linestyle b.alpha b.label) }

/-- Translation of recover_axis_formatting (layout.py): labels, title, x
ticks and tick labels, and both limit pairs are copied from the old axis (the
y-tick lines are commented out in the source and stay untouched). -/
def recover_axis_formatting (oldAx : OldAxes) (na : NewAxes) : NewAxes :=
  { na with
    xlabel := oldAx.xlabel
    ylabel := oldAx.ylabel
    title := oldAx.title
    titleFontsize := none
    xlocator := some oldAx.xticks
    xformatter := some oldAx.xticklabels
    xlim := oldAx.xlim
    ylim := oldAx.ylim }

/-- Translation of recover_axis_position (layout.py). -/
def recover_axis_position (oldAx : OldAxes) (na : NewAxes) : NewAxes :=
  { na with position := oldAx.position }

/-- Translation of recover_legend (layout.py): the new axis gets a legend
built from the old axis's handles and labels. -/
def recover_legend (oldAx : OldAxes) (na : NewAxes) : NewAxes :=
  { na with legend := some (oldAx.legendHL.map (fun p => (Sum.inl p.1, p.2))) }

/-- The body of the loop of plot_same_new_figure (layout.py) once the target
axis has been chosen: the sequence of recover_* calls applied to it. -/
def recoverAll (oldAx : OldAxes) (na : NewAxes) : Except String NewAxes := do
  let na := recover_Line2D oldAx na
  let na := recover_errorbars oldAx na
  let na ← recover_hlines_vlines oldAx na
  let na ← recover_fill_between oldAx na
  let na := recover_scatter oldAx na
  let na ← recover_barplot oldAx na
  let na := recover_axis_formatting oldAx na
  let na := recover_axis_position oldAx na
  .ok (recover_legend oldAx na)

/-- The loop of plot_same_new_figure over the old figure's axes.  The base
axis (new_ax_og) is threaded through; twin axes created by twinx()/twiny()
inside sharing_axis are collected in creation order.  When both sharing tests
fire, the twinx axis is created and immediately shadowed, so it stays a fresh
empty axis while the recover calls act on the twiny axis. -/
def redrawAxes : List OldAxes → Bool → NewAxes → List NewAxes →
    Except String (NewAxes × List NewAxes)
  | [], _, base, twins => .ok (base, twins)
  | oldAx :: rest, isFirst, base, twins => do
    let share ← sharing_axis isFirst oldAx.joinedX oldAx.joinedY
    if share.usesNewAxOg then do
      let base' ← recoverAll oldAx base
      redrawAxes rest false base' twins
    else do
      let target ← recoverAll oldAx {}
      redrawAxes rest false base
        (twins ++ List.replicate (share.twinsCreated - 1) {} ++ [target])

/-- Translation of plot_same_new_figure (layout.py): replots a whole source
figure onto one subplot axis, returning the updated subplot axis and the twin
axes appended to the new figure. -/
def plot_same_new_figure (oldFig : OldFig) (newAxOg : NewAxes) :
    Except String (NewAxes × List NewAxes) :=
  redrawAxes oldFig.axes true newAxOg []

/-! ## layout.py: figure assembly -/

/-- The subplot position set by print_into_row_subplots for every axis of the
cell at grid position (i, j):
[(j+pad)/ncols, (i+pad)/nrows, (1-2*pad)/ncols, (1-2*pad)/nrows]. -/
def cellRect (pad : ℚ) (nrows ncols i j : Nat) : Rect :=
  ⟨((j : ℚ) + pad) / (ncols : ℚ), ((i : ℚ) + pad) / (nrows : ℚ),
   (1 - 2 * pad) / (ncols : ℚ), (1 - 2 * pad) / (nrows : ℚ)⟩

/-- The axes a cell contributes to the new figure: the subplot axis created
by add_subplot (replotted in place) followed by the twin axes, all moved to
the cell position by the set_position loop of print_into_row_subplots. -/
def cellAxes (pad : ℚ) (nrows ncols i j : Nat) (f : OldFig) :
    Except String (List NewAxes) := do
  let (base, twins) ← plot_same_new_figure f {}
  .ok ((base :: twins).map (fun a => { a with position := cellRect pad nrows ncols i j }))

/-- The inner (column) loop of print_into_row_subplots: each cell appends its
axes to the figure and records their indices in a vector. -/
def printRow (pad : ℚ) (nrows ncols i : Nat) :
    List OldFig → Nat → List NewAxes → Except String (List NewAxes × List (List Nat))
  | [], _, axes => .ok (axes, [])
  | f :: fs, j, axes => do
    let newAxes ← cellAxes pad nrows ncols i j f
    let vec := List.range' axes.length newAxes.length
    let (axesF, vecs) ← printRow pad nrows ncols i fs (j + 1) (axes ++ newAxes)
    .ok (axesF, vec :: vecs)

/-- The outer (row) loop of print_into_row_subplots. -/
def printRows (pad : ℚ) (nrows ncols : Nat) :
    List (List OldFig) → Nat → List NewAxes → Except String (List NewAxes × Tens)
  | [], _, axes => .ok (axes, [])
  | m :: ms, i, axes => do
    let (axes', mat) ← printRow pad nrows ncols i m 0 axes
    let (axesF, mats) ← printRows pad nrows ncols ms (i + 1) axes'
    .ok (axesF, mat :: mats)

/-- Translation of print_into_row_subplots (layout.py).  The produced tens is
reversed at the end, as in the source. -/
def print_into_row_subplots (tempFigList : List (List OldFig)) (newFig : Figure)
    (pad : ℚ) : Except String (Figure × Tens) := do
  let nrows := tempFigList.length
  let ncols := (tempFigList.headD []).length
  let (axes, tens) ← printRows pad nrows ncols tempFigList 0 newFig.axes
  .ok ({ newFig with axes := axes }, tens.reverse)

/-- The part of create_figure (layout.py) before the plt.figure call: builds
the reversed reshaped grid and the figure size.  np.array raises on ragged
input; reshape(-1, n) raises when the element count is not a multiple of n
(or n = 0); np.max raises when the grid has no rows. -/
def createFigurePre (matFig : List (List OldFig)) (listSites : List String) :
    Except String (List (List OldFig) × Figure) := do
  let _ ← npArray2dShape matFig
  let temp0 ← npReshapeNeg1 matFig.flatten listSites.length
  let temp := temp0.reverse
  let ncols := listSites.length
  let widths ← temp.mapM (fun row => (pyGet row 0).map (fun f => f.size.1))
  let wmax ← npMax widths
  let heights ← temp.mapM (fun row => (pyGet row 0).map (fun f => f.size.2))
  let hsum := heights.sum
  .ok (temp, { figsize := ((ncols : ℚ) * wmax, hsum), axes := [] })

/-- Translation of create_figure (layout.py). -/
def create_figure (matFig : List (List OldFig)) (listSites : List String) (pad : ℚ) :
    Except String (Figure × Tens) := do
  let (temp, fig0) ← createFigurePre matFig listSites
  print_into_row_subplots temp fig0 pad

/-- create_figure with the pyplot global figure registry made explicit: the
plt.figure call appends the newly created figure object to the registry, and
nothing in the source reads the registry. -/
def create_figure_st (gcf : List Figure) (matFig : List (List OldFig))
    (listSites : List String) (pad : ℚ) :
    List Figure × Except String (Figure × Tens) :=
  match createFigurePre matFig listSites with
  | .error e => (gcf, .error e)
  | .ok (temp, fig0) => (gcf ++ [fig0], print_into_row_subplots temp fig0 pad)

/-! ## layout.py: post-processing passes -/

/-- The legend handle/label pairs matplotlib collects from a list of
artists: those whose label is not empty and does not begin with an
underscore, paired with their labels. -/
def artistsHL (arts : List Artist) : List (HandleRef × String) :=
  (arts.filter
      (fun a => a.labelStr ≠ "" ∧ ¬ a.labelStr.startsWith "_")).map
    (fun a => (Sum.inr a, a.labelStr))

/-- get_legend_handles_labels on an axis of the composed figure. -/
def getLegendHandlesLabels (ax : NewAxes) : List (HandleRef × String) :=
  artistsHL ax.artists

/-- The loop body sequence of legends_only_last_subplot over the slice
fig.axes[flat_mat[0] : flat_mat[-1]+1], walking the axis indices of the slice
while accumulating the legend handles and labels of the axes of the last
subplot (lastRow).  The axis whose index equals the last entry of lastRow
gets a legend built from the accumulated pairs; every other axis of the slice
has its legend removed. -/
def legendsWalk (lastRow : List Nat) : List Nat → List (HandleRef × String) →
    List NewAxes → List NewAxes
  | [], _, axes => axes
  | k :: ks, hl, axes =>
    let ax := axes.getD k default
    if hmem : k ∈ lastRow then
      let hl' := hl ++ getLegendHandlesLabels ax
      if k = lastRow.getLast (List.ne_nil_of_mem hmem) then
        legendsWalk lastRow ks hl' (axes.set k { ax with legend := some hl' })
      else
        legendsWalk lastRow ks hl' (axes.set k { ax with legend := none })
    else
      legendsWalk lastRow ks hl (axes.set k { ax with legend := none })

/-- One row-group of legends_only_last_subplot.  flat_mat[0] raises when the
flattened group is empty; the slice fig.axes[f0 : fl+1] clamps to the axes
list length as Python slices do. -/
def legendsRow (axes : List NewAxes) (mat : List (List Nat)) :
    Except String (List NewAxes) := do
  let flat := mat.flatten
  let f0 ← pyGet flat 0
  let fl ← pyGet flat (flat.length - 1)
  let lastRow ← pyGet mat (mat.length - 1)
  .ok (legendsWalk lastRow (List.range' f0 (min (fl + 1) axes.length - f0)) [] axes)

/-- Translation of legends_only_last_subplot (layout.py). -/
def legends_only_last_subplot (fig : Figure) (tens : Tens) : Except String Figure := do
  let axes ← tens.foldlM legendsRow fig.axes
  .ok { fig with axes := axes }

/-- Clearing the y label and y tick labels of fig.axes[j], as
labels_only_last_subplot does (set_yticklabels of an empty string installs an
empty FixedFormatter). -/
def clearY (axes : List NewAxes) (j : Nat) : Except String (List NewAxes) := do
  let ax ← pyGet axes j
  .ok (axes.set j { ax with ylabel := "", yformatter := some [] })

/-- The innermost loop of labels_only_last_subplot over one subplot vector,
with num_ax the enumeration counter and row the subplot row inside the
group. -/
def labelsVec (matLen row : Nat) : List Nat → Nat → List NewAxes →
    Except String (List NewAxes)
  | [], _, axes => .ok axes
  | j :: js, numAx, axes => do
    let axes ← if row > 0 ∧ numAx = 0 then clearY axes j else .ok axes
    let axes ← if row < matLen - 1 ∧ numAx = 1 then clearY axes j else .ok axes
    labelsVec matLen row js (numAx + 1) axes

/-- The per-group loop of labels_only_last_subplot. -/
def labelsMat (matLen : Nat) : List (List Nat) → Nat → List NewAxes →
    Except String (List NewAxes)
  | [], _, axes => .ok axes
  | vec :: vecs, row, axes => do
    let axes' ← labelsVec matLen row vec 0 axes
    labelsMat matLen vecs (row + 1) axes'

/-- Translation of labels_only_last_subplot (layout.py). -/
def labels_only_last_subplot (fig : Figure) (tens : Tens) : Except String Figure := do
  let axes ← tens.foldlM (fun axes mat => labelsMat mat.length mat 0 axes) fig.axes
  .ok { fig with axes := axes }

/-- The filtered column of y limits built inside set_common_ylims:
[lim for i, lim in enumerate(all-axes limits) if i in group], walked with an
explicit index counter. -/
def selectedLimsGo (g : List Nat) : Nat → List NewAxes → List (ℚ × ℚ)
  | _, [] => []
  | k, ax :: rest =>
    if k ∈ g then ax.ylim :: selectedLimsGo g (k + 1) rest
    else selectedLimsGo g (k + 1) rest

def selectedLims (axes : List NewAxes) (g : List Nat) : List (ℚ × ℚ) :=
  selectedLimsGo g 0 axes

/-- The set_ylim loop of set_common_ylims over one column group. -/
def setYlims (lo hi : ℚ) : List Nat → List NewAxes → Except String (List NewAxes)
  | [], axes => .ok axes
  | i :: is, axes => do
    let ax ← pyGet axes i
    setYlims lo hi is (axes.set i { ax with ylim := (lo, hi) })

/-- One column j of one row-group of set_common_ylims: the group is
[m[j] for m in mat]; the minimum of the lower and the maximum of the upper
current y limits over the group are installed on every group axis. -/
def ylimsCol (axes : List NewAxes) (mat : List (List Nat)) (j : Nat) :
    Except String (List NewAxes) := do
  let g ← mat.mapM (fun m => pyGet m j)
  let lo ← npMin ((selectedLims axes g).map Prod.fst)
  let hi ← npMax ((selectedLims axes g).map Prod.snd)
  setYlims lo hi g axes

/-- The column loop (for j in range(shape[1])) of set_common_ylims. -/
def ylimsCols (mat : List (List Nat)) : List Nat → List NewAxes →
    Except String (List NewAxes)
  | [], axes => .ok axes
  | j :: js, axes => do
    let axes' ← ylimsCol axes mat j
    ylimsCols mat js axes'

/-- The row-group loop of set_common_ylims: np.array(mat).shape is taken per
group (raising on ragged or empty groups). -/
def ylimsMats : Tens → List NewAxes → Except String (List NewAxes)
  | [], axes => .ok axes
  | mat :: mats, axes => do
    let shape ← npMatShape2 mat
    let axes' ← ylimsCols mat (List.range shape.2) axes
    ylimsMats mats axes'

/-- Translation of set_common_ylims (layout.py). -/
def set_common_ylims (fig : Figure) (tens : Tens) : Except String Figure := do
  let axes ← ylimsMats tens fig.axes
  .ok { fig with axes := axes }

/-- The x-limit pairs of the flattened row read by sharex_rows (index errors
surface while the lims list is built). -/
def rowXlims (axes : List NewAxes) (row : List (List Nat)) :
    Except String (List (ℚ × ℚ)) :=
  row.flatten.mapM (fun r => (pyGet axes r).map (fun ax => ax.xlim))

/-- The update loop of sharex_rows for one row: every axis of the row gets
the row x limits and its x locator and formatter reset to the automatic
ones. -/
def setXlims (lo hi : ℚ) : List Nat → List NewAxes → Except String (List NewAxes)
  | [], axes => .ok axes
  | i :: is, axes => do
    let ax ← pyGet axes i
    setXlims lo hi is
      (axes.set i { ax with xlim := (lo, hi), xlocator := none, xformatter := none })

def applyRowXlims : List (List (List Nat) × (ℚ × ℚ)) → List NewAxes →
    Except String (List NewAxes)
  | [], axes => .ok axes
  | (row, lims) :: rest, axes => do
    let axes' ← setXlims lims.1 lims.2 row.flatten axes
    applyRowXlims rest axes'

/-- Translation of sharex_rows (layout.py). -/
def sharex_rows (fig : Figure) (tens : Tens) : Except String Figure := do
  let lims ← tens.mapM (rowXlims fig.axes)
  let xmins ← lims.mapM (fun rl => npMin (rl.map Prod.fst))
  let xmaxs ← lims.mapM (fun rl => npMax (rl.map Prod.snd))
  let axes ← applyRowXlims (tens.zip (xmins.zip xmaxs)) fig.axes
  .ok { fig with axes := axes }

/-- Translation of sharex_cols (layout.py): sharex_rows on the zip-transposed
grid index. -/
def sharex_cols (fig : Figure) (tens : Tens) : Except String Figure :=
  sharex_rows fig (zipTranspose tens)

/-- Translation of set_common_xlims (layout.py), with Python equality tests
on the bool-or-string argument. -/
def set_common_xlims (fig : Figure) (tens : Tens) (sharex : ShareX) :
    Except String Figure :=
  if sharex = .s "row" then
    sharex_rows fig tens
  else if sharex = .s "col" then
    sharex_cols fig tens
  else if sharex = .b true ∨ sharex = .s "all" then do
    let fig' ← sharex_rows fig tens
    sharex_cols fig' tens
  else
    .ok fig

/-- The title update loop of add_column_titles over the zip of first-axes and
site names (zip truncates to the shorter list). -/
def setTitles : List (Nat × String) → List NewAxes → Except String (List NewAxes)
  | [], axes => .ok axes
  | (i, site) :: rest, axes => do
    let ax ← pyGet axes i
    setTitles rest (axes.set i { ax with title := site, titleFontsize := some 20 })

/-- Translation of add_column_titles (layout.py): the comprehension
[fig.axes[m[0]] for m in tens[0]] is evaluated in full (surfacing index
errors) before zip truncation. -/
def add_column_titles (fig : Figure) (tens : Tens) (listSites : List String) :
    Except String Figure := do
  let row0 ← pyGet tens 0
  let idxs ← row0.mapM (fun m => pyGet m 0)
  let _ ← idxs.mapM (pyGet fig.axes)
  let axes ← setTitles (idxs.zip listSites) fig.axes
  .ok { fig with axes := axes }

/-- Translation of align_ylabels (layout.py): fig.align_ylabels is called on
the first axis of each group's first subplot and on the last axis of each
group's last subplot; the alignment is a rendering-time effect, recorded as
the two registered groups. -/
def align_ylabels (fig : Figure) (tens : Tens) : Except String Figure := do
  let firsts ← tens.mapM (fun m => do pyGet (← pyGet m 0) 0)
  let _ ← firsts.mapM (pyGet fig.axes)
  let lasts ← tens.mapM (fun m => do
    let lastVec ← pyGet m (m.length - 1)
    pyGet lastVec (lastVec.length - 1))
  let _ ← lasts.mapM (pyGet fig.axes)
  .ok { fig with ylabelAlignGroups := fig.ylabelAlignGroups ++ [firsts, lasts] }

/-! ## plotting_funcs.py: master_plot -/

/-- Python truthiness of the save_plots argument: None and the empty string
are falsy. -/
def pyTruthy : Option String → Bool
  | none => false
  | some s => !(s == "")

/-- Translation of master_plot (plotting_funcs.py).  The third component of
the result records the side effect: the name of the PDF file written by
savefig, or none when nothing is written. -/
def master_plot (matFig : List (List OldFig)) (listSites : List String) (pad : ℚ)
    (savePlots : Option String) (sharex : ShareX) :
    Except String (Figure × Tens × Option String) := do
  let (fig, tens) ← create_figure matFig listSites pad
  let fig ← legends_only_last_subplot fig tens
  let fig ← labels_only_last_subplot fig tens
  let fig ← set_common_ylims fig tens
  let fig ← set_common_xlims fig tens sharex
  let fig ← add_column_titles fig tens listSites
  let fig ← align_ylabels fig tens
  let written := if pyTruthy savePlots then some (savePlots.getD "" ++ ".pdf") else none
  .ok (fig, tens, written)

/-- master_plot with the pyplot global figure registry made explicit. -/
def master_plot_st (gcf : List Figure) (matFig : List (List OldFig))
    (listSites : List String) (pad : ℚ) (savePlots : Option String) (sharex : ShareX) :
    List Figure × Except String (Figure × Tens × Option String) :=
  match create_figure_st gcf matFig listSites pad with
  | (gcf', r) =>
    (gcf', do
      let (fig, tens) ← r
      let fig ← legends_only_last_subplot fig tens
      let fig ← labels_only_last_subplot fig tens
      let fig ← set_common_ylims fig tens
      let fig ← set_common_xlims fig tens sharex
      let fig ← add_column_titles fig tens listSites
      let fig ← align_ylabels fig tens
      let written := if pyTruthy savePlots then some (savePlots.getD "" ++ ".pdf") else none
      .ok (fig, tens, written))

/-! ## Concrete inputs used by the witnesses -/

instance : Inhabited Line2D := ⟨{ data := [], color := "", linestyle := "", linewidth := 0, label := "" }⟩

instance : Inhabited Artist := ⟨.plotLine [] [] "" "" ""⟩

def lineA : Line2D :=
  { data := [(0, 2), (1, 3)], color := "C0", linestyle := "-", linewidth := 3/2, label := "a" }

def oldAx0 : OldAxes :=
  { lines := [lineA], lineColls := [], polyColls := [], pathColls := [],
    containersBarlines := [], patches := [], xlim := (0, 10), ylim := (-1, 5),
    xlabel := "x", ylabel := "y", title := "t", xticks := [0, 5],
    xticklabels := ["0", "5"], legendHL := [], position := ⟨1/10, 1/10, 8/10, 8/10⟩,
    joinedX := false, joinedY := false }

def oldFigA : OldFig := { axes := [oldAx0], size := (4, 3) }

/-! ## Generic Except lemmas -/

theorem exbind_ok {α β : Type} (a : α) (f : α → Except String β) :
    (Except.ok a : Except String α) >>= f = f a := rfl

theorem exbind_err {α β : Type} (e : String) (f : α → Except String β) :
    (Except.error e : Except String α) >>= f = .error e := rfl

theorem exmap_bind {α β γ : Type} (e : Except String α) (f : α → Except String β)
    (g : β → γ) : (e >>= f).map g = e >>= fun a => (f a).map g := by
  cases e <;> rfl

instance {ε α : Type} [DecidableEq ε] [DecidableEq α] : DecidableEq (Except ε α) := fun a b =>
  match a, b with
  | .error e, .error e' =>
    if h : e = e' then .isTrue (by rw [h]) else .isFalse (fun c => h (Except.error.inj c))
  | .error _, .ok _ => .isFalse (fun c => Except.noConfusion c)
  | .ok _, .error _ => .isFalse (fun c => Except.noConfusion c)
  | .ok a, .ok b =>
    if h : a = b then .isTrue (by rw [h]) else .isFalse (fun c => h (Except.ok.inj c))

/-! ## C5 -/

/-- C5: master_plot is exactly the fixed pipeline create_figure, then legend
decluttering, then label decluttering, then y-limit normalization, then
x-limit normalization, then column titling, then y-label alignment, each pass
consuming the figure produced by the previous pass; the optional save step
does not alter the figure/grid-index pair, which is independent of the
save_plots argument. -/
theorem master_plot_is_pipeline (m : List (List OldFig)) (l : List String) (p : ℚ)
    (sp : Option String) (sx : ShareX) :
    (master_plot m l p sp sx =
      (create_figure m l p) >>= (fun ft =>
      (legends_only_last_subplot ft.1 ft.2) >>= (fun f1 =>
      (labels_only_last_subplot f1 ft.2) >>= (fun f2 =>
      (set_common_ylims f2 ft.2) >>= (fun f3 =>
      (set_common_xlims f3 ft.2 sx) >>= (fun f4 =>
      (add_column_titles f4 ft.2 l) >>= (fun f5 =>
      (align_ylabels f5 ft.2) >>= (fun f6 =>
      Except.ok (f6, ft.2,
        if pyTruthy sp then some (sp.getD "" ++ ".pdf") else none))))))))) ∧
    ∀ sp' : Option String,
      (master_plot m l p sp sx).map (fun r => (r.1, r.2.1)) =
      (master_plot m l p sp' sx).map (fun r => (r.1, r.2.1)) := by
  constructor
  · rfl
  · intro sp'
    unfold master_plot
    cases hc : create_figure m l p with
    | error e => rfl
    | ok ft =>
      simp only [exbind_ok]
      cases legends_only_last_subplot ft.1 ft.2 with
      | error e => rfl
      | ok f1 =>
        simp only [exbind_ok]
        cases labels_only_last_subplot f1 ft.2 with
        | error e => rfl
        | ok f2 =>
          simp only [exbind_ok]
          cases set_common_ylims f2 ft.2 with
          | error e => rfl
          | ok f3 =>
            simp only [exbind_ok]
            cases set_common_xlims f3 ft.2 sx with
            | error e => rfl
            | ok f4 =>
              simp only [exbind_ok]
              cases add_column_titles f4 ft.2 l with
              | error e => rfl
              | ok f5 =>
                simp only [exbind_ok]
                cases align_ylabels f5 ft.2 with
                | error e => rfl
                | ok f6 => rfl

/-! ## C8 -/

theorem create_figure_st_snd (gcf : List Figure) (m : List (List OldFig))
    (l : List String) (p : ℚ) :
    (create_figure_st gcf m l p).2 = create_figure m l p := by
  unfold create_figure_st create_figure
  cases h : createFigurePre m l with
  | error e => rfl
  | ok tf => rfl

/-- C8: invocations of master_plot share no mutable state.  With the pyplot
global figure registry made explicit, the result of an invocation is the
pure function of its inputs whatever the registry holds, so two runs on
equal inputs produce equal figure/grid-index/savefile results, and a
completed invocation (which only appends its new figure to the registry)
cannot change the result of any later invocation. -/
theorem master_plot_no_shared_state (gcf : List Figure) (m : List (List OldFig))
    (l : List String) (p : ℚ) (sp : Option String) (sx : ShareX) :
    (master_plot_st gcf m l p sp sx).2 = master_plot m l p sp sx ∧
    ∀ gcf' : List Figure,
      (master_plot_st gcf m l p sp sx).2 = (master_plot_st gcf' m l p sp sx).2 := by
  have key : ∀ g : List Figure, (master_plot_st g m l p sp sx).2 = master_plot m l p sp sx := by
    intro g
    unfold master_plot_st master_plot create_figure create_figure_st
    cases h : createFigurePre m l with
    | error e => rfl
    | ok tf => obtain ⟨temp, fig0⟩ := tf; rfl
  exact ⟨key gcf, fun gcf' => (key gcf).trans (key gcf').symm⟩

/-! ## C1 -/

/-- Projection of a master_plot result onto the recorded savefig side effect:
some w when the call succeeded and wrote w (none for no write), none when the
call raised. -/
def resultWritten (r : Except String (Figure × Tens × Option String)) :
    Option (Option String) :=
  match r with
  | .ok (_, _, w) => some w
  | .error _ => none

/-- C1 counterexample: passing the basename save_plots = some "" (a basename,
not None), master_plot succeeds and performs no file write, because the
source guards the savefig call with Python truthiness, which the empty
string fails. -/
theorem master_plot_empty_basename_no_write :
    resultWritten (master_plot [[oldFigA]] ["A"] (3/100) (some "") (.b false)) =
      some none := by decide

/-- C1 (amended): master_plot returns the composed figure paired with the
grid index produced by create_figure, writes f string save_plots .pdf exactly
when a non-empty basename is passed, and performs no file write when
save_plots is None or the empty string. -/
theorem master_plot_interface (m : List (List OldFig)) (l : List String) (p : ℚ)
    (sp : Option String) (sx : ShareX) (fig : Figure) (tens : Tens)
    (w : Option String)
    (h : master_plot m l p sp sx = .ok (fig, tens, w)) :
    (∃ fig0, create_figure m l p = .ok (fig0, tens)) ∧
    w = (match sp with
         | none => none
         | some s => if s = "" then none else some (s ++ ".pdf")) := by
  unfold master_plot at h
  cases hc : create_figure m l p with
  | error e => rw [hc] at h; exact absurd h (by simp [exbind_err])
  | ok ft =>
    obtain ⟨f0, t0⟩ := ft
    rw [hc] at h
    rw [exbind_ok] at h
    dsimp only at h
    cases h1 : legends_only_last_subplot f0 t0 with
    | error e => rw [h1, exbind_err] at h; exact absurd h (by simp)
    | ok f1 =>
      rw [h1, exbind_ok] at h
      cases h2 : labels_only_last_subplot f1 t0 with
      | error e => rw [h2, exbind_err] at h; exact absurd h (by simp)
      | ok f2 =>
        rw [h2, exbind_ok] at h
        cases h3 : set_common_ylims f2 t0 with
        | error e => rw [h3, exbind_err] at h; exact absurd h (by simp)
        | ok f3 =>
          rw [h3, exbind_ok] at h
          cases h4 : set_common_xlims f3 t0 sx with
          | error e => rw [h4, exbind_err] at h; exact absurd h (by simp)
          | ok f4 =>
            rw [h4, exbind_ok] at h
            cases h5 : add_column_titles f4 t0 l with
            | error e => rw [h5, exbind_err] at h; exact absurd h (by simp)
            | ok f5 =>
              rw [h5, exbind_ok] at h
              cases h6 : align_ylabels f5 t0 with
              | error e => rw [h6, exbind_err] at h; exact absurd h (by simp)
              | ok f6 =>
                rw [h6, exbind_ok] at h
                rw [Except.ok.injEq, Prod.mk.injEq, Prod.mk.injEq] at h
                obtain ⟨hfig, htens, hw⟩ := h
                subst htens
                subst hw
                constructor
                · exact ⟨f0, rfl⟩
                · cases sp with
                  | none => rfl
                  | some s =>
                    by_cases hs : s = ""
                    · simp [pyTruthy, hs]
                    · simp [pyTruthy, hs]

instance : Inhabited Figure := ⟨{ figsize := (0, 0) }⟩

theorem master_plot_interface_witness :
    (∃ fig0, create_figure [[oldFigA]] ["A"] (3/100) = .ok (fig0, [[[0]]])) ∧
    (some "out.pdf" : Option String) =
      (match (some "out" : Option String) with
       | none => none
       | some s => if s = "" then none else some (s ++ ".pdf")) :=
  master_plot_interface [[oldFigA]] ["A"] (3/100) (some "out") (.b false)
    ((master_plot [[oldFigA]] ["A"] (3/100) (some "out") (.b false)).toOption.getD
      default).1 [[[0]]] (some "out.pdf") (by rfl)

/-! ## C7 -/

/-- C7: master_plot has no error recovery: when the element count of a
(well-formed, rectangular) figure grid is not a multiple of the number of
column labels, the internal reshape raises, and that library error
propagates unchanged through master_plot to the caller, so no figure /
grid-index pair is returned; more generally any error of create_figure is
returned unchanged by master_plot. -/
theorem master_plot_propagates_errors (m : List (List OldFig)) (l : List String)
    (p : ℚ) (sp : Option String) (sx : ShareX)
    (harr : ∃ sh, npArray2dShape m = .ok sh)
    (hmod : l.length = 0 ∨ m.flatten.length % l.length ≠ 0) :
    create_figure m l p = .error "ValueError: cannot reshape array" ∧
    master_plot m l p sp sx = .error "ValueError: cannot reshape array" ∧
    ∀ e, create_figure m l p = .error e → master_plot m l p sp sx = .error e := by
  obtain ⟨sh, hsh⟩ := harr
  have hpre : createFigurePre m l = .error "ValueError: cannot reshape array" := by
    unfold createFigurePre
    rw [hsh, exbind_ok]
    unfold npReshapeNeg1
    rw [if_pos hmod]
    rfl
  have hcf : create_figure m l p = .error "ValueError: cannot reshape array" := by
    unfold create_figure
    rw [hpre]
    rfl
  have hprop : ∀ e, create_figure m l p = .error e → master_plot m l p sp sx = .error e := by
    intro e he
    unfold master_plot
    rw [he]
    rfl
  exact ⟨hcf, hprop _ hcf, hprop⟩

theorem master_plot_propagates_errors_witness :
    create_figure [[oldFigA]] ["A", "B"] (3/100) = .error "ValueError: cannot reshape array" ∧
    master_plot [[oldFigA]] ["A", "B"] (3/100) none (.b false) =
      .error "ValueError: cannot reshape array" ∧
    ∀ e, create_figure [[oldFigA]] ["A", "B"] (3/100) = .error e →
      master_plot [[oldFigA]] ["A", "B"] (3/100) none (.b false) = .error e :=
  master_plot_propagates_errors [[oldFigA]] ["A", "B"] (3/100) none (.b false)
    ⟨(1, 1), by decide⟩ (by decide)

/-! ## C9 -/

/-- C9: a source figure whose second axes is joined to the first axes on
neither the x nor the y axis makes plot_same_new_figure raise: sharing_axis
reaches its return with new_ax never assigned, which is the
UnboundLocalError produced by sharing_axis on the unjoined non-first axis. -/
theorem plot_same_new_figure_unjoined_raises (oldFig : OldFig) (a0 a1 : OldAxes)
    (rest : List OldAxes) (base : NewAxes)
    (haxes : oldFig.axes = a0 :: a1 :: rest)
    (hx : a1.joinedX = false) (hy : a1.joinedY = false) :
    (∃ e, plot_same_new_figure oldFig base = .error e) ∧
    sharing_axis false a1.joinedX a1.joinedY =
      .error "UnboundLocalError: local variable new_ax referenced before assignment" := by
  have hshare : sharing_axis false a1.joinedX a1.joinedY =
      .error "UnboundLocalError: local variable new_ax referenced before assignment" := by
    rw [hx, hy]
    rfl
  refine ⟨?_, hshare⟩
  have step : plot_same_new_figure oldFig base =
      (recoverAll a0 base) >>= fun b' => redrawAxes (a1 :: rest) false b' [] := by
    rw [plot_same_new_figure, haxes]
    rfl
  cases h : recoverAll a0 base with
  | error e => exact ⟨e, by rw [step, h]; rfl⟩
  | ok b' =>
    refine ⟨"UnboundLocalError: local variable new_ax referenced before assignment", ?_⟩
    rw [step, h, exbind_ok]
    show (sharing_axis false a1.joinedX a1.joinedY) >>= _ = _
    rw [hshare]
    rfl

theorem plot_same_new_figure_unjoined_raises_witness :
    (∃ e, plot_same_new_figure { axes := [oldAx0, oldAx0], size := (4, 3) } {} = .error e) ∧
    sharing_axis false oldAx0.joinedX oldAx0.joinedY =
      .error "UnboundLocalError: local variable new_ax referenced before assignment" :=
  plot_same_new_figure_unjoined_raises { axes := [oldAx0, oldAx0], size := (4, 3) }
    oldAx0 oldAx0 [] {} rfl rfl rfl

/-! ## C10 -/

/-- A segment of a line collection that spans the full x range of its axis at
constant y (the axhline branch of recover_hlines_vlines), and does not hit
the full-vertical branch tested first. -/
def fullWidthHorizontal (xmin xmax ymin ymax : ℚ) (seg : Segment) : Prop :=
  seg.1.2 = seg.2.2 ∧ seg.1.1 = xmin ∧ seg.2.1 = xmax ∧
  ¬ (seg.1.1 = seg.2.1 ∧ seg.1.2 = ymin ∧ seg.2.2 = ymax)

theorem hvSegment_error_only (xmin xmax ymin ymax : ℚ) (coll : LineColl) (i : Nat)
    (seg : Segment) (na : NewAxes) (e : String)
    (h : hvSegment xmin xmax ymin ymax coll i seg na = .error e) :
    e = "AttributeError: Line2D object has no property x" := by
  simp only [hvSegment] at h
  split at h
  · exact Except.noConfusion h
  · split at h
    · simp [axhlineCall] at h
      exact h.symm
    · exact Except.noConfusion h

theorem hvSegment_bad (xmin xmax ymin ymax : ℚ) (coll : LineColl) (i : Nat)
    (seg : Segment) (na : NewAxes)
    (hb : fullWidthHorizontal xmin xmax ymin ymax seg) :
    hvSegment xmin xmax ymin ymax coll i seg na =
      .error "AttributeError: Line2D object has no property x" := by
  obtain ⟨hy, hx0, hx1, hnv⟩ := hb
  simp only [hvSegment]
  rw [if_neg hnv, if_pos ⟨hy, hx0, hx1⟩]
  rfl

theorem hvSegments_error_only (xmin xmax ymin ymax : ℚ) (coll : LineColl) :
    ∀ (segs : List Segment) (i : Nat) (na : NewAxes) (e : String),
    hvSegments xmin xmax ymin ymax coll i segs na = .error e →
    e = "AttributeError: Line2D object has no property x" := by
  intro segs
  induction segs with
  | nil => intro i na e h; exact Except.noConfusion h
  | cons s rest ih =>
    intro i na e h
    rw [show hvSegments xmin xmax ymin ymax coll i (s :: rest) na =
      (hvSegment xmin xmax ymin ymax coll i s na) >>= fun na' =>
        hvSegments xmin xmax ymin ymax coll (i + 1) rest na' from rfl] at h
    cases hs : hvSegment xmin xmax ymin ymax coll i s na with
    | error e' =>
      rw [hs, exbind_err] at h
      exact (Except.error.inj h) ▸ hvSegment_error_only xmin xmax ymin ymax coll i s na e' hs
    | ok na' =>
      rw [hs, exbind_ok] at h
      exact ih (i + 1) na' e h

theorem hvSegments_bad (xmin xmax ymin ymax : ℚ) (coll : LineColl) :
    ∀ (segs : List Segment) (i : Nat) (na : NewAxes),
    (∃ s ∈ segs, fullWidthHorizontal xmin xmax ymin ymax s) →
    hvSegments xmin xmax ymin ymax coll i segs na =
      .error "AttributeError: Line2D object has no property x" := by
  intro segs
  induction segs with
  | nil => intro i na h; exact absurd h (by simp)
  | cons s rest ih =>
    intro i na h
    rw [show hvSegments xmin xmax ymin ymax coll i (s :: rest) na =
      (hvSegment xmin xmax ymin ymax coll i s na) >>= fun na' =>
        hvSegments xmin xmax ymin ymax coll (i + 1) rest na' from rfl]
    obtain ⟨t, ht, hbad⟩ := h
    rcases List.mem_cons.mp ht with rfl | hrest
    · rw [hvSegment_bad xmin xmax ymin ymax coll i t na hbad]
      rfl
    · cases hs : hvSegment xmin xmax ymin ymax coll i s na with
      | error e' =>
        rw [exbind_err,
          hvSegment_error_only xmin xmax ymin ymax coll i s na e' hs]
      | ok na' =>
        rw [exbind_ok]
        exact ih (i + 1) na' ⟨t, hrest, hbad⟩

theorem hvColls_bad (xmin xmax ymin ymax : ℚ) (coll : LineColl) (seg : Segment)
    (hseg : seg ∈ coll.segments)
    (hbad : fullWidthHorizontal xmin xmax ymin ymax seg) :
    ∀ (colls : List LineColl), coll ∈ colls → ∀ na : NewAxes,
    colls.foldlM (fun ax c => hvSegments xmin xmax ymin ymax c 0 c.segments ax) na =
      .error "AttributeError: Line2D object has no property x" := by
  intro colls
  induction colls with
  | nil => intro h; exact absurd h (by simp)
  | cons c cs ih =>
    intro hmem na
    rw [show (c :: cs).foldlM (fun ax c =>
        hvSegments xmin xmax ymin ymax c 0 c.segments ax) na =
      (hvSegments xmin xmax ymin ymax c 0 c.segments na) >>= fun na' =>
        cs.foldlM (fun ax c => hvSegments xmin xmax ymin ymax c 0 c.segments ax) na'
      from rfl]
    rcases List.mem_cons.mp hmem with rfl | hcs
    · rw [hvSegments_bad xmin xmax ymin ymax coll coll.segments 0 na ⟨seg, hseg, hbad⟩]
      rfl
    · cases hs : hvSegments xmin xmax ymin ymax c 0 c.segments na with
      | error e' =>
        rw [exbind_err, hvSegments_error_only xmin xmax ymin ymax c c.segments 0 na e' hs]
      | ok na' =>
        rw [exbind_ok]
        exact ih hcs na'

/-- C10: a line collection segment spanning the full (non-degenerate)
x-range at constant y makes recover_hlines_vlines fail: its horizontal
branch calls axhline with an x keyword argument and no y value, and the
destination axis rejects the unknown Line2D property x. -/
theorem recover_hlines_vlines_full_horizontal_raises (oldAx : OldAxes) (na : NewAxes)
    (coll : LineColl) (seg : Segment)
    (hcoll : coll ∈ oldAx.lineColls) (hseg : seg ∈ coll.segments)
    (hy : seg.1.2 = seg.2.2) (hx0 : seg.1.1 = oldAx.xlim.1) (hx1 : seg.2.1 = oldAx.xlim.2)
    (hnd : oldAx.xlim.1 ≠ oldAx.xlim.2) :
    recover_hlines_vlines oldAx na =
      .error "AttributeError: Line2D object has no property x" := by
  have hbad : fullWidthHorizontal oldAx.xlim.1 oldAx.xlim.2 oldAx.ylim.1 oldAx.ylim.2 seg := by
    refine ⟨hy, hx0, hx1, ?_⟩
    rintro ⟨hvx, -, -⟩
    exact hnd (hx0 ▸ hx1 ▸ hvx)
  exact hvColls_bad oldAx.xlim.1 oldAx.xlim.2 oldAx.ylim.1 oldAx.ylim.2 coll seg hseg hbad
    oldAx.lineColls hcoll na

def collH : LineColl :=
  { segments := [((0, 7), (10, 7))], colors := [[1, 0, 0, 1]], linewidths := [1],
    linestyles := ["-"], alpha := none, label := "h" }

def oldAxH : OldAxes := { oldAx0 with lineColls := [collH] }

theorem recover_hlines_vlines_full_horizontal_raises_witness :
    recover_hlines_vlines oldAxH {} =
      .error "AttributeError: Line2D object has no property x" :=
  recover_hlines_vlines_full_horizontal_raises oldAxH {} collH ((0, 7), (10, 7))
    (by decide) (by decide) (by decide) (by decide) (by decide) (by decide)

/-! ## C6 -/

/-- The redraw contract claimed for one Line2D: a two-point line with
constant y becomes a full-width horizontal line at that y keeping color,
linestyle, linewidth and label; otherwise a two-point line with constant x
becomes a full-height vertical line at that x; every other line is replotted
with its x data, y data, label, color and linestyle preserved. -/
def RedrawsAsClaim (l : Line2D) (a : Artist) : Prop :=
  (∀ p q : ℚ × ℚ, l.data = [p, q] → p.2 = q.2 →
      a = .axhline p.2 (.named l.color) l.linestyle l.linewidth none l.label) ∧
  (∀ p q : ℚ × ℚ, l.data = [p, q] → p.2 ≠ q.2 → p.1 = q.1 →
      a = .axvline p.1 (.named l.color) l.linestyle l.linewidth none l.label) ∧
  ((¬ ∃ p q : ℚ × ℚ, l.data = [p, q] ∧ (p.2 = q.2 ∨ p.1 = q.1)) →
      a = .plotLine l.xdata l.ydata l.label l.color l.linestyle)

/-- C6: recover_Line2D appends to the destination axis exactly one redrawn
artist per 2-D line of the source axis, in order, and each line is redrawn
according to the claimed contract. -/
theorem recover_Line2D_spec (oldAx : OldAxes) (na : NewAxes) :
    (recover_Line2D oldAx na).artists = na.artists ++ oldAx.lines.map redrawLine ∧
    ∀ l ∈ oldAx.lines, RedrawsAsClaim l (redrawLine l) := by
  refine ⟨rfl, ?_⟩
  intro l _
  refine ⟨?_, ?_, ?_⟩
  · intro p q hdata hyq
    simp only [redrawLine, hdata]
    rw [if_pos hyq]
  · intro p q hdata hyq hxq
    simp only [redrawLine, hdata]
    rw [if_neg hyq, if_pos hxq]
  · intro hno
    rcases hdata : l.data with - | ⟨p, - | ⟨q, - | ⟨r, t⟩⟩⟩
    · simp only [redrawLine, hdata]
    · simp only [redrawLine, hdata]
    · have h1 : ¬ p.2 = q.2 := fun h => hno ⟨p, q, hdata, Or.inl h⟩
      have h2 : ¬ p.1 = q.1 := fun h => hno ⟨p, q, hdata, Or.inr h⟩
      simp only [redrawLine, hdata]
      rw [if_neg h1, if_neg h2]
    · simp only [redrawLine, hdata]

theorem recover_Line2D_spec_witness :
    RedrawsAsClaim lineA (redrawLine lineA) :=
  (recover_Line2D_spec oldAx0 {}).2 lineA (show lineA ∈ [lineA] from List.mem_singleton.mpr rfl)

/-! ## C2 -/

/-- v is the minimum of the values in s. -/
def isMinOf (v : ℚ) (s : List ℚ) : Prop := v ∈ s ∧ ∀ x ∈ s, v ≤ x

/-- v is the maximum of the values in s. -/
def isMaxOf (v : ℚ) (s : List ℚ) : Prop := v ∈ s ∧ ∀ x ∈ s, x ≤ v

/-- The axis indices [m[j] for m in mat] of column j of a row-group. -/
def colGroup (mat : List (List Nat)) (j : Nat) : List Nat :=
  mat.map (fun m => m.getD j 0)

theorem pyGet_ok {α : Type} {l : List α} {i : Nat} {a : α} :
    pyGet l i = .ok a ↔ l[i]? = some a := by
  unfold pyGet
  cases h : l[i]? with
  | none => simp
  | some b => simp

theorem pyGet_ok_of_lt {α : Type} [Inhabited α] {l : List α} {i : Nat} (h : i < l.length) :
    pyGet l i = .ok (l.getD i default) := by
  rw [pyGet_ok]
  simp [List.getD, List.getElem?_eq_getElem h]

theorem foldl_min_mem : ∀ (xs : List ℚ) (x : ℚ), xs.foldl min x ∈ x :: xs := by
  intro xs
  induction xs with
  | nil => intro x; simp
  | cons a as ih =>
    intro x
    rw [List.foldl_cons]
    rcases List.mem_cons.mp (ih (min x a)) with h | h
    · rw [h]
      rcases min_choice x a with hc | hc
      · rw [hc]; exact List.mem_cons_self _ _
      · rw [hc]; exact List.mem_cons.mpr (Or.inr (List.mem_cons_self _ _))
    · exact List.mem_cons.mpr (Or.inr (List.mem_cons.mpr (Or.inr h)))

theorem foldl_min_le : ∀ (xs : List ℚ) (x y : ℚ), y ∈ x :: xs → xs.foldl min x ≤ y := by
  intro xs
  induction xs with
  | nil =>
    intro x y hy
    exact le_of_eq (List.mem_singleton.mp hy).symm
  | cons a as ih =>
    intro x y hy
    rw [List.foldl_cons]
    rcases List.mem_cons.mp hy with heq | hy2
    · exact le_trans
        (le_trans (ih (min x a) (min x a) (List.mem_cons_self _ _)) (min_le_left x a))
        (le_of_eq heq.symm)
    · rcases List.mem_cons.mp hy2 with heq | hy3
      · exact le_trans
          (le_trans (ih (min x a) (min x a) (List.mem_cons_self _ _)) (min_le_right x a))
          (le_of_eq heq.symm)
      · exact ih (min x a) y (List.mem_cons.mpr (Or.inr hy3))

theorem foldl_max_mem : ∀ (xs : List ℚ) (x : ℚ), xs.foldl max x ∈ x :: xs := by
  intro xs
  induction xs with
  | nil => intro x; simp
  | cons a as ih =>
    intro x
    rw [List.foldl_cons]
    rcases List.mem_cons.mp (ih (max x a)) with h | h
    · rw [h]
      rcases max_choice x a with hc | hc
      · rw [hc]; exact List.mem_cons_self _ _
      · rw [hc]; exact List.mem_cons.mpr (Or.inr (List.mem_cons_self _ _))
    · exact List.mem_cons.mpr (Or.inr (List.mem_cons.mpr (Or.inr h)))

theorem le_foldl_max : ∀ (xs : List ℚ) (x y : ℚ), y ∈ x :: xs → y ≤ xs.foldl max x := by
  intro xs
  induction xs with
  | nil =>
    intro x y hy
    exact le_of_eq (List.mem_singleton.mp hy)
  | cons a as ih =>
    intro x y hy
    rw [List.foldl_cons]
    rcases List.mem_cons.mp hy with heq | hy2
    · exact le_trans (le_of_eq heq)
        (le_trans (le_max_left x a) (ih (max x a) (max x a) (List.mem_cons_self _ _)))
    · rcases List.mem_cons.mp hy2 with heq | hy3
      · exact le_trans (le_of_eq heq)
          (le_trans (le_max_right x a) (ih (max x a) (max x a) (List.mem_cons_self _ _)))
      · exact ih (max x a) y (List.mem_cons.mpr (Or.inr hy3))

theorem npMin_spec {l : List ℚ} {v : ℚ} (h : npMin l = .ok v) : isMinOf v l := by
  cases l with
  | nil => exact Except.noConfusion h
  | cons x xs =>
    have hv : v = xs.foldl min x := (Except.ok.inj h).symm
    subst hv
    exact ⟨foldl_min_mem xs x, fun y hy => foldl_min_le xs x y hy⟩

theorem npMax_spec {l : List ℚ} {v : ℚ} (h : npMax l = .ok v) : isMaxOf v l := by
  cases l with
  | nil => exact Except.noConfusion h
  | cons x xs =>
    have hv : v = xs.foldl max x := (Except.ok.inj h).symm
    subst hv
    exact ⟨foldl_max_mem xs x, fun y hy => le_foldl_max xs x y hy⟩

theorem npMin_ok_of_ne_nil {l : List ℚ} (h : l ≠ []) : ∃ v, npMin l = .ok v := by
  cases l with
  | nil => exact absurd rfl h
  | cons x xs => exact ⟨xs.foldl min x, rfl⟩

theorem npMax_ok_of_ne_nil {l : List ℚ} (h : l ≠ []) : ∃ v, npMax l = .ok v := by
  cases l with
  | nil => exact absurd rfl h
  | cons x xs => exact ⟨xs.foldl max x, rfl⟩

theorem isMinOf_congr {v : ℚ} {s t : List ℚ} (hm : ∀ x, x ∈ s ↔ x ∈ t)
    (h : isMinOf v s) : isMinOf v t :=
  ⟨(hm v).mp h.1, fun x hx => h.2 x ((hm x).mpr hx)⟩

theorem isMaxOf_congr {v : ℚ} {s t : List ℚ} (hm : ∀ x, x ∈ s ↔ x ∈ t)
    (h : isMaxOf v s) : isMaxOf v t :=
  ⟨(hm v).mp h.1, fun x hx => h.2 x ((hm x).mpr hx)⟩

theorem mem_selectedLimsGo (g : List Nat) :
    ∀ (axes : List NewAxes) (k : Nat) (v : ℚ × ℚ),
    v ∈ selectedLimsGo g k axes ↔
      ∃ d, d < axes.length ∧ (k + d) ∈ g ∧ (axes.getD d default).ylim = v := by
  intro axes
  induction axes with
  | nil =>
    intro k v
    simp [selectedLimsGo]
  | cons ax rest ih =>
    intro k v
    rw [selectedLimsGo]
    by_cases hk : k ∈ g
    · rw [if_pos hk]
      constructor
      · intro hv
        rcases List.mem_cons.mp hv with heq | hv'
        · exact ⟨0, Nat.succ_pos _, by simpa using hk, by simpa using heq.symm⟩
        · obtain ⟨d, hd, hkd, hval⟩ := (ih (k + 1) v).mp hv'
          refine ⟨d + 1, Nat.succ_lt_succ hd, ?_, by simpa using hval⟩
          rw [show k + (d + 1) = k + 1 + d by omega]
          exact hkd
      · rintro ⟨d, hd, hkd, hval⟩
        cases d with
        | zero => exact List.mem_cons.mpr (Or.inl (by simpa using hval.symm))
        | succ d' =>
          refine List.mem_cons.mpr (Or.inr ((ih (k + 1) v).mpr ⟨d', Nat.lt_of_succ_lt_succ hd, ?_, by simpa using hval⟩))
          rw [show k + 1 + d' = k + (d' + 1) by omega]
          exact hkd
    · rw [if_neg hk]
      constructor
      · intro hv
        obtain ⟨d, hd, hkd, hval⟩ := (ih (k + 1) v).mp hv
        exact ⟨d + 1, Nat.succ_lt_succ hd, by rw [show k + (d + 1) = k + 1 + d by omega]; exact hkd, by simpa using hval⟩
      · rintro ⟨d, hd, hkd, hval⟩
        cases d with
        | zero => exact absurd (by simpa using hkd) hk
        | succ d' =>
          refine (ih (k + 1) v).mpr ⟨d', Nat.lt_of_succ_lt_succ hd, ?_, by simpa using hval⟩
          rw [show k + 1 + d' = k + (d' + 1) by omega]
          exact hkd

theorem mem_selectedLims {axes : List NewAxes} {g : List Nat}
    (hb : ∀ i ∈ g, i < axes.length) (v : ℚ × ℚ) :
    v ∈ selectedLims axes g ↔ v ∈ g.map (fun i => (axes.getD i default).ylim) := by
  rw [selectedLims, mem_selectedLimsGo]
  constructor
  · rintro ⟨d, _, hdg, hval⟩
    simp only [Nat.zero_add] at hdg
    exact List.mem_map.mpr ⟨d, hdg, hval⟩
  · intro hv
    obtain ⟨i, hig, hval⟩ := List.mem_map.mp hv
    exact ⟨i, hb i hig, by simpa using hig, hval⟩

theorem mapM_pyGet_col (j : Nat) :
    ∀ (mat : List (List Nat)), (∀ m ∈ mat, j < m.length) →
    mat.mapM (fun m => pyGet m j) = .ok (mat.map (fun m => m.getD j 0)) := by
  intro mat
  induction mat with
  | nil => intro _; rfl
  | cons m ms ih =>
    intro hb
    rw [List.mapM_cons, pyGet_ok_of_lt (hb m (List.mem_cons_self _ _)), exbind_ok,
      ih (fun m' hm' => hb m' (List.mem_cons.mpr (Or.inr hm'))), exbind_ok]
    rfl

theorem setYlims_spec (lo hi : ℚ) :
    ∀ (g : List Nat) (axes : List NewAxes), (∀ i ∈ g, i < axes.length) →
    ∃ axes', setYlims lo hi g axes = .ok axes' ∧ axes'.length = axes.length ∧
      ∀ k, axes'[k]? = (axes[k]?).map
        (fun ax => if k ∈ g then { ax with ylim := (lo, hi) } else ax) := by
  intro g
  induction g with
  | nil =>
    intro axes _
    refine ⟨axes, rfl, rfl, fun k => ?_⟩
    cases h : axes[k]? <;> simp
  | cons i is ih =>
    intro axes hb
    have hilt : i < axes.length := hb i (List.mem_cons_self _ _)
    have hval : axes[i]? = some (axes.getD i default) := by
      rw [List.getD_eq_getElem?_getD, List.getElem?_eq_getElem hilt]
      simp
    have hb2 : ∀ t ∈ is, t < (axes.set i
        { axes.getD i default with ylim := (lo, hi) }).length := by
      intro t ht
      rw [List.length_set]
      exact hb t (List.mem_cons.mpr (Or.inr ht))
    obtain ⟨axes2, heq, hlen, hpt⟩ :=
      ih (axes.set i { axes.getD i default with ylim := (lo, hi) }) hb2
    refine ⟨axes2, ?_, by rw [hlen, List.length_set], fun k => ?_⟩
    · rw [setYlims, pyGet_ok_of_lt hilt, exbind_ok]
      exact heq
    · rw [hpt k, List.getElem?_set]
      by_cases hki : i = k
      · subst hki
        rw [if_pos rfl, if_pos hilt, hval]
        simp only [Option.map_some']
        by_cases hkis : i ∈ is
        · rw [if_pos hkis, if_pos (List.mem_cons_self i is)]
        · rw [if_neg hkis, if_pos (List.mem_cons_self i is)]
      · rw [if_neg hki]
        cases hk : axes[k]? with
        | none => simp
        | some ax =>
          simp only [Option.map_some']
          by_cases hkis : k ∈ is
          · rw [if_pos hkis, if_pos (List.mem_cons.mpr (Or.inr hkis))]
          · rw [if_neg hkis, if_neg (fun hc => by
              rcases List.mem_cons.mp hc with hc | hc
              · exact hki hc.symm
              · exact hkis hc)]

theorem getD_eq_of_getElem?_eq {axes axes0 : List NewAxes} {i : Nat}
    (h : axes[i]? = axes0[i]?) :
    axes.getD i default = axes0.getD i default := by
  rw [List.getD_eq_getElem?_getD, List.getD_eq_getElem?_getD, h]

theorem colGroup_ne_nil {mat : List (List Nat)} (h : mat ≠ []) (j : Nat) :
    colGroup mat j ≠ [] := by
  unfold colGroup
  simp [h]

theorem mem_colGroup_bound {mat : List (List Nat)} {j : Nat}
    (hrect : ∀ m ∈ mat, j < m.length) {i : Nat} (hi : i ∈ colGroup mat j) :
    ∃ m ∈ mat, i ∈ m := by
  obtain ⟨m, hm, hval⟩ := List.mem_map.mp hi
  refine ⟨m, hm, ?_⟩
  rw [← hval, List.getD_eq_getElem?_getD, List.getElem?_eq_getElem (hrect m hm)]
  exact List.getElem_mem (hrect m hm)

theorem ylimsCol_spec (axes : List NewAxes) (mat : List (List Nat)) (j : Nat)
    (hmne : mat ≠ []) (hrect : ∀ m ∈ mat, j < m.length)
    (hb : ∀ i ∈ colGroup mat j, i < axes.length) :
    ∃ lo hi axes', ylimsCol axes mat j = .ok axes' ∧
      axes'.length = axes.length ∧
      isMinOf lo ((colGroup mat j).map (fun i => (axes.getD i default).ylim.1)) ∧
      isMaxOf hi ((colGroup mat j).map (fun i => (axes.getD i default).ylim.2)) ∧
      ∀ k, axes'[k]? = (axes[k]?).map
        (fun ax => if k ∈ colGroup mat j then { ax with ylim := (lo, hi) } else ax) := by
  have hmap : mat.mapM (fun m => pyGet m j) = .ok (colGroup mat j) :=
    mapM_pyGet_col j mat hrect
  have hgne : colGroup mat j ≠ [] := colGroup_ne_nil hmne j
  have hsel : ∀ v : ℚ × ℚ, v ∈ selectedLims axes (colGroup mat j) ↔
      v ∈ (colGroup mat j).map (fun i => (axes.getD i default).ylim) :=
    mem_selectedLims hb
  have hselne : selectedLims axes (colGroup mat j) ≠ [] := by
    intro hnil
    obtain ⟨i, hi⟩ := List.exists_mem_of_ne_nil _ hgne
    have : (axes.getD i default).ylim ∈ selectedLims axes (colGroup mat j) :=
      (hsel _).mpr (List.mem_map.mpr ⟨i, hi, rfl⟩)
    rw [hnil] at this
    exact absurd this (List.not_mem_nil _)
  have hlowiff : ∀ x : ℚ, x ∈ (selectedLims axes (colGroup mat j)).map Prod.fst ↔
      x ∈ (colGroup mat j).map (fun i => (axes.getD i default).ylim.1) := by
    intro x
    constructor
    · intro hx
      obtain ⟨v, hv, hvx⟩ := List.mem_map.mp hx
      obtain ⟨i, hig, hvi⟩ := List.mem_map.mp ((hsel v).mp hv)
      exact List.mem_map.mpr ⟨i, hig, by rw [hvi, hvx]⟩
    · intro hx
      obtain ⟨i, hig, hvx⟩ := List.mem_map.mp hx
      exact List.mem_map.mpr ⟨(axes.getD i default).ylim,
        (hsel _).mpr (List.mem_map.mpr ⟨i, hig, rfl⟩), hvx⟩
  have hhighiff : ∀ x : ℚ, x ∈ (selectedLims axes (colGroup mat j)).map Prod.snd ↔
      x ∈ (colGroup mat j).map (fun i => (axes.getD i default).ylim.2) := by
    intro x
    constructor
    · intro hx
      obtain ⟨v, hv, hvx⟩ := List.mem_map.mp hx
      obtain ⟨i, hig, hvi⟩ := List.mem_map.mp ((hsel v).mp hv)
      exact List.mem_map.mpr ⟨i, hig, by rw [hvi, hvx]⟩
    · intro hx
      obtain ⟨i, hig, hvx⟩ := List.mem_map.mp hx
      exact List.mem_map.mpr ⟨(axes.getD i default).ylim,
        (hsel _).mpr (List.mem_map.mpr ⟨i, hig, rfl⟩), hvx⟩
  obtain ⟨lo, hlo⟩ := npMin_ok_of_ne_nil
    (show (selectedLims axes (colGroup mat j)).map Prod.fst ≠ [] by
      simpa using hselne)
  obtain ⟨hi, hhi⟩ := npMax_ok_of_ne_nil
    (show (selectedLims axes (colGroup mat j)).map Prod.snd ≠ [] by
      simpa using hselne)
  obtain ⟨axes', hset, hlen, hpt⟩ := setYlims_spec lo hi (colGroup mat j) axes hb
  refine ⟨lo, hi, axes', ?_, hlen, ?_, ?_, hpt⟩
  · rw [ylimsCol, hmap, exbind_ok, hlo, exbind_ok, hhi, exbind_ok]
    exact hset
  · exact isMinOf_congr hlowiff (npMin_spec hlo)
  · exact isMaxOf_congr hhighiff (npMax_spec hhi)

theorem ylimsCols_spec (mat : List (List Nat)) (axes0 : List NewAxes)
    (hmne : mat ≠ []) :
    ∀ (js : List Nat) (axes : List NewAxes),
    (∀ j ∈ js, ∀ m ∈ mat, j < m.length) →
    axes.length = axes0.length →
    (∀ j ∈ js, ∀ i ∈ colGroup mat j, i < axes0.length) →
    (∀ j ∈ js, ∀ i ∈ colGroup mat j, axes[i]? = axes0[i]?) →
    List.Pairwise (fun j j' => ∀ i ∈ colGroup mat j, i ∉ colGroup mat j') js →
    ∃ axes', ylimsCols mat js axes = .ok axes' ∧ axes'.length = axes.length ∧
      (∀ j ∈ js, ∃ lo hi,
        isMinOf lo ((colGroup mat j).map (fun i => (axes0.getD i default).ylim.1)) ∧
        isMaxOf hi ((colGroup mat j).map (fun i => (axes0.getD i default).ylim.2)) ∧
        ∀ i ∈ colGroup mat j,
          axes'[i]? = (axes0[i]?).map (fun ax => { ax with ylim := (lo, hi) })) ∧
      (∀ k, (∀ j ∈ js, k ∉ colGroup mat j) → axes'[k]? = axes[k]?) := by
  intro js
  induction js with
  | nil =>
    intro axes _ _ _ _ _
    exact ⟨axes, rfl, rfl, by simp, fun k _ => rfl⟩
  | cons j js' ih =>
    intro axes hjs hlen hb0 hagree hdisj
    have hrect : ∀ m ∈ mat, j < m.length := hjs j (List.mem_cons_self _ _)
    have hbcur : ∀ i ∈ colGroup mat j, i < axes.length := by
      intro i hi
      rw [hlen]
      exact hb0 j (List.mem_cons_self _ _) i hi
    obtain ⟨lo, hi, axes2, hcol, hlen2, hmin, hmax, hpt⟩ :=
      ylimsCol_spec axes mat j hmne hrect hbcur
    have hdhead : ∀ j' ∈ js', ∀ i ∈ colGroup mat j, i ∉ colGroup mat j' :=
      (List.pairwise_cons.mp hdisj).1
    have hdtail : List.Pairwise (fun a b => ∀ i ∈ colGroup mat a, i ∉ colGroup mat b) js' :=
      (List.pairwise_cons.mp hdisj).2
    have hagree2 : ∀ j' ∈ js', ∀ i ∈ colGroup mat j', axes2[i]? = axes0[i]? := by
      intro j' hj' i hij'
      have hnot : i ∉ colGroup mat j := by
        intro hij
        exact hdhead j' hj' i hij hij'
      rw [hpt i]
      cases hk : axes[i]? with
      | none =>
        rw [hagree j' (List.mem_cons.mpr (Or.inr hj')) i hij'] at hk
        rw [hk]
        rfl
      | some ax =>
        rw [Option.map_some', if_neg hnot]
        rw [← hk]
        exact hagree j' (List.mem_cons.mpr (Or.inr hj')) i hij'
    obtain ⟨axes', hcols, hlen', hdone, hframe⟩ := ih axes2
      (fun j' hj' => hjs j' (List.mem_cons.mpr (Or.inr hj')))
      (hlen2.trans hlen)
      (fun j' hj' => hb0 j' (List.mem_cons.mpr (Or.inr hj')))
      hagree2 hdtail
    refine ⟨axes', ?_, by rw [hlen', hlen2], ?_, ?_⟩
    · rw [ylimsCols, hcol, exbind_ok]
      exact hcols
    · intro jj hjj
      rcases List.mem_cons.mp hjj with heq | hjj'
      · subst heq
        refine ⟨lo, hi, ?_, ?_, ?_⟩
        · have hcongr : (colGroup mat jj).map (fun i => (axes.getD i default).ylim.1) =
              (colGroup mat jj).map (fun i => (axes0.getD i default).ylim.1) := by
            apply List.map_congr_left
            intro i hig
            rw [getD_eq_of_getElem?_eq (hagree jj (List.mem_cons_self _ _) i hig)]
          rw [← hcongr]
          exact hmin
        · have hcongr : (colGroup mat jj).map (fun i => (axes.getD i default).ylim.2) =
              (colGroup mat jj).map (fun i => (axes0.getD i default).ylim.2) := by
            apply List.map_congr_left
            intro i hig
            rw [getD_eq_of_getElem?_eq (hagree jj (List.mem_cons_self _ _) i hig)]
          rw [← hcongr]
          exact hmax
        · intro i hig
          have hfr : axes'[i]? = axes2[i]? :=
            hframe i (fun j' hj' => hdhead j' hj' i hig)
          rw [hfr, hpt i, hagree jj (List.mem_cons_self _ _) i hig]
          cases hk : axes0[i]? with
          | none => rfl
          | some ax => rw [Option.map_some', Option.map_some', if_pos hig]
      · exact hdone jj hjj'
    · intro k hk
      rw [hframe k (fun j' hj' => hk j' (List.mem_cons.mpr (Or.inr hj'))), hpt k]
      cases hkk : axes[k]? with
      | none => rfl
      | some ax => rw [Option.map_some', if_neg (hk j (List.mem_cons_self _ _))]

theorem npMatShape2_ok {mat : List (List Nat)} {rc : Nat × Nat}
    (h : npMatShape2 mat = .ok rc) :
    mat ≠ [] ∧ (∀ m ∈ mat, m.length = (mat.headD []).length) ∧
      rc.2 = (mat.headD []).length := by
  cases mat with
  | nil => exact Except.noConfusion h
  | cons r rs =>
    rw [npMatShape2] at h
    by_cases hall : rs.all (fun row => row.length = r.length)
    · rw [if_pos hall] at h
      have hrc := (Except.ok.inj h).symm
      refine ⟨List.cons_ne_nil _ _, ?_, by rw [hrc]; rfl⟩
      intro m hm
      rcases List.mem_cons.mp hm with heq | hm'
      · rw [heq]
        rfl
      · have := List.all_eq_true.mp hall m hm'
        simpa using this
    · rw [if_neg hall] at h
      exact Except.noConfusion h

theorem ylimsMats_spec (axes0 : List NewAxes) :
    ∀ (tens : Tens) (axes : List NewAxes),
    (∀ mat ∈ tens, ∃ rc : Nat × Nat, npMatShape2 mat = .ok rc) →
    axes.length = axes0.length →
    (∀ mat ∈ tens, ∀ j, j < (mat.headD []).length → ∀ i ∈ colGroup mat j, i < axes0.length) →
    (∀ mat ∈ tens, ∀ j, j < (mat.headD []).length → ∀ i ∈ colGroup mat j, axes[i]? = axes0[i]?) →
    List.Pairwise (fun g g' => ∀ i ∈ g, i ∉ g')
      (tens.flatMap (fun mat => (List.range ((mat.headD []).length)).map (colGroup mat))) →
    ∃ axes', ylimsMats tens axes = .ok axes' ∧ axes'.length = axes.length ∧
      (∀ mat ∈ tens, ∀ j, j < (mat.headD []).length → ∃ lo hi,
        isMinOf lo ((colGroup mat j).map (fun i => (axes0.getD i default).ylim.1)) ∧
        isMaxOf hi ((colGroup mat j).map (fun i => (axes0.getD i default).ylim.2)) ∧
        ∀ i ∈ colGroup mat j,
          axes'[i]? = (axes0[i]?).map (fun ax => { ax with ylim := (lo, hi) })) ∧
      (∀ k, (∀ mat ∈ tens, ∀ j, j < (mat.headD []).length → k ∉ colGroup mat j) →
        axes'[k]? = axes[k]?) := by
  intro tens
  induction tens with
  | nil =>
    intro axes _ _ _ _ _
    exact ⟨axes, rfl, rfl, by simp, fun k _ => rfl⟩
  | cons mat mats ih =>
    intro axes hshape hlen hb0 hagree hdisj
    obtain ⟨rc, hsh⟩ := hshape mat (List.mem_cons_self _ _)
    obtain ⟨hmne, hrows, hc⟩ := npMatShape2_ok hsh
    rw [List.flatMap_cons, List.pairwise_append] at hdisj
    obtain ⟨hdself, hdrest, hdcross⟩ := hdisj
    have hdself' : List.Pairwise
        (fun j j' => ∀ i ∈ colGroup mat j, i ∉ colGroup mat j')
        (List.range ((mat.headD []).length)) := List.pairwise_map.mp hdself
    obtain ⟨axes2, hcols, hlen2, hdone2, hframe2⟩ :=
      ylimsCols_spec mat axes0 hmne (List.range ((mat.headD []).length)) axes
        (fun j hj m hm => by rw [hrows m hm]; exact List.mem_range.mp hj)
        hlen
        (fun j hj => hb0 mat (List.mem_cons_self _ _) j (List.mem_range.mp hj))
        (fun j hj => hagree mat (List.mem_cons_self _ _) j (List.mem_range.mp hj))
        hdself'
    have hagree2 : ∀ mat' ∈ mats, ∀ j, j < (mat'.headD []).length →
        ∀ i ∈ colGroup mat' j, axes2[i]? = axes0[i]? := by
      intro mat' hmat' j hj i hij
      have hnotin : ∀ j' ∈ List.range ((mat.headD []).length), i ∉ colGroup mat j' := by
        intro j' hj' hin
        exact hdcross (colGroup mat j')
          (List.mem_map.mpr ⟨j', hj', rfl⟩)
          (colGroup mat' j)
          (List.mem_flatMap.mpr ⟨mat', hmat',
            List.mem_map.mpr ⟨j, List.mem_range.mpr hj, rfl⟩⟩)
          i hin hij
      rw [hframe2 i hnotin]
      exact hagree mat' (List.mem_cons.mpr (Or.inr hmat')) j hj i hij
    obtain ⟨axes', hmats, hlen', hdone', hframe'⟩ := ih axes2
      (fun mat' hm => hshape mat' (List.mem_cons.mpr (Or.inr hm)))
      (hlen2.trans hlen)
      (fun mat' hm => hb0 mat' (List.mem_cons.mpr (Or.inr hm)))
      hagree2 hdrest
    refine ⟨axes', ?_, by rw [hlen', hlen2], ?_, ?_⟩
    · rw [ylimsMats, hsh, exbind_ok, hc, hcols, exbind_ok]
      exact hmats
    · intro mat' hmat' j hj
      rcases List.mem_cons.mp hmat' with heq | hm'
      · subst heq
        obtain ⟨lo, hi, hmin, hmax, hvals⟩ :=
          hdone2 j (List.mem_range.mpr hj)
        refine ⟨lo, hi, hmin, hmax, ?_⟩
        intro i hig
        have hnotin : ∀ mat2 ∈ mats, ∀ j2, j2 < (mat2.headD []).length →
            i ∉ colGroup mat2 j2 := by
          intro mat2 hmat2 j2 hj2 hin
          exact hdcross (colGroup mat' j)
            (List.mem_map.mpr ⟨j, List.mem_range.mpr hj, rfl⟩)
            (colGroup mat2 j2)
            (List.mem_flatMap.mpr ⟨mat2, hmat2,
              List.mem_map.mpr ⟨j2, List.mem_range.mpr hj2, rfl⟩⟩)
            i hig hin
        rw [hframe' i hnotin]
        exact hvals i hig
      · exact hdone' mat' hm' j hj
    · intro k hk
      rw [hframe' k (fun mat' hm => hk mat' (List.mem_cons.mpr (Or.inr hm)))]
      exact hframe2 k
        (fun j hj => hk mat (List.mem_cons_self _ _) j (List.mem_range.mp hj))

/-- C2: after set_common_ylims, for every row-group mat of the grid index and
every column position j inside that group, all axes fig.axes[m[j]] for m in
mat carry the same y limits, namely the minimum of those axes' lower y
limits and the maximum of their upper y limits as they were before the call.
The hypotheses state that every group is a nonempty rectangular block of
valid axis indices and that the groups of the grid index are pairwise
disjoint, which holds for every grid index produced by create_figure. -/
theorem set_common_ylims_spec (fig : Figure) (tens : Tens)
    (hshape : ∀ mat ∈ tens, ∃ rc : Nat × Nat, npMatShape2 mat = .ok rc)
    (hbound : ∀ mat ∈ tens, ∀ m ∈ mat, ∀ i ∈ m, i < fig.axes.length)
    (hdisj : List.Pairwise (fun g g' => ∀ i ∈ g, i ∉ g')
      (tens.flatMap (fun mat => (List.range ((mat.headD []).length)).map (colGroup mat)))) :
    ∃ fig', set_common_ylims fig tens = .ok fig' ∧
      fig'.axes.length = fig.axes.length ∧
      ∀ mat ∈ tens, ∀ j, j < (mat.headD []).length → ∃ lo hi,
        isMinOf lo ((colGroup mat j).map (fun i => (fig.axes.getD i default).ylim.1)) ∧
        isMaxOf hi ((colGroup mat j).map (fun i => (fig.axes.getD i default).ylim.2)) ∧
        ∀ i ∈ colGroup mat j,
          fig'.axes.getD i default =
            { fig.axes.getD i default with ylim := (lo, hi) } := by
  have hb0 : ∀ mat ∈ tens, ∀ j, j < (mat.headD []).length →
      ∀ i ∈ colGroup mat j, i < fig.axes.length := by
    intro mat hmat j hj i hig
    obtain ⟨rc, hsh⟩ := hshape mat hmat
    obtain ⟨-, hrows, -⟩ := npMatShape2_ok hsh
    obtain ⟨m, hm, him⟩ := mem_colGroup_bound
      (fun m hm => by rw [hrows m hm]; exact hj) hig
    exact hbound mat hmat m hm i him
  obtain ⟨axes', hmats, hlen, hdone, -⟩ :=
    ylimsMats_spec fig.axes tens fig.axes hshape rfl hb0
      (fun _ _ _ _ _ _ => rfl) hdisj
  refine ⟨{ fig with axes := axes' }, ?_, hlen, ?_⟩
  · rw [set_common_ylims, hmats]
    rfl
  · intro mat hmat j hj
    obtain ⟨lo, hi, hmin, hmax, hvals⟩ := hdone mat hmat j hj
    refine ⟨lo, hi, hmin, hmax, ?_⟩
    intro i hig
    have hilt : i < fig.axes.length := hb0 mat hmat j hj i hig
    have hsome : fig.axes[i]? = some (fig.axes.getD i default) := by
      rw [List.getD_eq_getElem?_getD, List.getElem?_eq_getElem hilt]
      simp
    have := hvals i hig
    rw [hsome, Option.map_some'] at this
    rw [List.getD_eq_getElem?_getD, this]
    rfl

def axW0 : NewAxes := { ylim := (0, 4) }

def axW1 : NewAxes := { ylim := (-2, 1) }

def figW : Figure := { figsize := (1, 1), axes := [axW0, axW1] }

theorem set_common_ylims_spec_witness :
    ∃ fig', set_common_ylims figW [[[0], [1]]] = .ok fig' ∧
      fig'.axes.length = figW.axes.length ∧
      ∀ mat ∈ ([[[0], [1]]] : Tens), ∀ j, j < (mat.headD []).length → ∃ lo hi,
        isMinOf lo ((colGroup mat j).map (fun i => (figW.axes.getD i default).ylim.1)) ∧
        isMaxOf hi ((colGroup mat j).map (fun i => (figW.axes.getD i default).ylim.2)) ∧
        ∀ i ∈ colGroup mat j,
          fig'.axes.getD i default =
            { figW.axes.getD i default with ylim := (lo, hi) } :=
  set_common_ylims_spec figW [[[0], [1]]]
    (by
      intro mat hm
      rw [List.mem_singleton] at hm
      subst hm
      exact ⟨(2, 1), rfl⟩)
    (by decide)
    (by decide)

/-! ## C3 -/

theorem legendsWalk_suffix (lastRow : List Nat) (hnd : lastRow.Nodup) (le : Nat)
    (hle : lastRow.getLast? = some le) :
    ∀ (ks pre : List Nat), ks ≠ [] → lastRow = pre ++ ks →
    ∀ (hl : List (HandleRef × String)) (axes : List NewAxes),
    (∀ i ∈ ks, i < axes.length) →
    (legendsWalk lastRow ks hl axes).length = axes.length ∧
    (∀ k, k ∉ ks → (legendsWalk lastRow ks hl axes)[k]? = axes[k]?) ∧
    (∀ k ∈ ks, k ≠ le →
      (legendsWalk lastRow ks hl axes)[k]? =
        (axes[k]?).map (fun ax => { ax with legend := none })) ∧
    ((legendsWalk lastRow ks hl axes)[le]? =
      (axes[le]?).map (fun ax =>
        { ax with legend := some (hl ++ ks.flatMap
            (fun i => artistsHL ((axes.getD i default).artists))) })) := by
  intro ks
  induction ks with
  | nil => intro pre hne; exact absurd rfl hne
  | cons k ks' ih =>
    intro pre _ hsplit hl axes hb
    have hkmem : k ∈ lastRow := by
      rw [hsplit]
      exact List.mem_append.mpr (Or.inr (List.mem_cons_self _ _))
    have hklt : k < axes.length := hb k (List.mem_cons_self _ _)
    have hksome : axes[k]? = some (axes.getD k default) := by
      rw [List.getD_eq_getElem?_getD, List.getElem?_eq_getElem hklt]
      simp
    have hgl : ∀ h : lastRow ≠ [], lastRow.getLast h = le := by
      intro h
      have := List.getLast?_eq_getLast lastRow h
      rw [hle] at this
      exact (Option.some.inj this).symm
    cases hks' : ks' with
    | nil =>
      subst hks'
      have hkle : k = le := by
        have : lastRow.getLast? = some k := by
          rw [hsplit, List.getLast?_concat]
        rw [hle] at this
        exact (Option.some.inj this).symm
      subst hkle
      rw [legendsWalk, dif_pos hkmem]
      rw [if_pos (hgl (List.ne_nil_of_mem hkmem)).symm]
      rw [legendsWalk]
      refine ⟨by rw [List.length_set], ?_, ?_, ?_⟩
      · intro t ht
        have htk : t ≠ k := fun hc => ht (hc ▸ List.mem_cons_self _ _)
        rw [List.getElem?_set_ne (fun hc => htk hc.symm)]
      · intro t ht hne2
        rcases List.mem_cons.mp ht with heq | hf
        · exact absurd heq hne2
        · exact absurd hf (List.not_mem_nil t)
      · rw [List.getElem?_set, if_pos rfl, if_pos hklt, hksome, Option.map_some']
        simp only [List.flatMap_cons, List.flatMap_nil, List.append_nil]
        rfl
    | cons k2 ks2 =>
      have hks'ne : ks' ≠ [] := by rw [hks']; exact List.cons_ne_nil _ _
      rw [← hks']
      have hndsuf : (k :: ks').Nodup := List.Nodup.of_append_right (hsplit ▸ hnd)
      have hknotin : k ∉ ks' := (List.nodup_cons.mp hndsuf).1
      have hkne : k ≠ le := by
        intro hc
        have hlast : lastRow.getLast? = ks'.getLast? := by
          rw [hsplit, show pre ++ k :: ks' = (pre ++ [k]) ++ ks' by simp,
            List.getLast?_append]
          cases hg : ks'.getLast? with
          | none => exact absurd (List.getLast?_eq_none_iff.mp hg) hks'ne
          | some x => rfl
        have : ks'.getLast? = some le := by rw [← hlast, hle]
        have hlemem : le ∈ ks' := by
          have hgl2 := List.getLast?_eq_getLast ks' hks'ne
          rw [this] at hgl2
          exact (Option.some.inj hgl2) ▸ List.getLast_mem hks'ne
        exact hknotin (hc ▸ hlemem)
      rw [legendsWalk, dif_pos hkmem]
      rw [if_neg (fun hc => hkne (hc.trans (hgl (List.ne_nil_of_mem hkmem))))]
      set axes2 := axes.set k { axes.getD k default with legend := none } with haxes2
      have hb2 : ∀ i ∈ ks', i < axes2.length := by
        intro i hi
        rw [haxes2, List.length_set]
        exact hb i (List.mem_cons.mpr (Or.inr hi))
      obtain ⟨ihlen, ihout, ihmid, ihle⟩ := ih (pre ++ [k]) hks'ne
        (by rw [hsplit, List.append_assoc]; rfl)
        (hl ++ getLegendHandlesLabels (axes.getD k default)) axes2 hb2
      have hframe2 : ∀ t, t ≠ k → axes2[t]? = axes[t]? := by
        intro t ht
        rw [haxes2, List.getElem?_set_ne (fun hc => ht hc.symm)]
      have hartists2 : ∀ i, ((axes2.getD i default).artists) = ((axes.getD i default).artists) := by
        intro i
        by_cases hik : i = k
        · subst hik
          rw [haxes2, List.getD_eq_getElem?_getD, List.getElem?_set, if_pos rfl, if_pos hklt]
          rfl
        · rw [List.getD_eq_getElem?_getD, hframe2 i hik, List.getD_eq_getElem?_getD]
      refine ⟨by rw [ihlen, haxes2, List.length_set], ?_, ?_, ?_⟩
      · intro t ht
        have htk : t ≠ k := fun hc => ht (hc ▸ List.mem_cons_self _ _)
        have htks' : t ∉ ks' := fun hc => ht (List.mem_cons.mpr (Or.inr hc))
        rw [ihout t htks', hframe2 t htk]
      · intro t ht hne2
        rcases List.mem_cons.mp ht with heq | hmem'
        · subst heq
          rw [ihout t hknotin, haxes2, List.getElem?_set, if_pos rfl, if_pos hklt,
            hksome, Option.map_some']
        · rw [ihmid t hmem' hne2, hframe2 t (fun hc => hknotin (hc ▸ hmem'))]
      · rw [ihle, hframe2 le (fun hc => hkne hc.symm)]
        cases hlesome : axes[le]? with
        | none => rfl
        | some axle =>
          rw [Option.map_some', Option.map_some']
          have hacc : ks'.flatMap (fun i => artistsHL ((axes2.getD i default).artists)) =
              ks'.flatMap (fun i => artistsHL ((axes.getD i default).artists)) := by
            rw [List.flatMap_def, List.flatMap_def,
              List.map_congr_left (fun i _ => by rw [hartists2 i])]
          rw [hacc, List.flatMap_cons, ← List.append_assoc]
          rfl

theorem legendsWalk_out (lastRow : List Nat) :
    ∀ (ks1 ks2 : List Nat) (hl : List (HandleRef × String)) (axes : List NewAxes),
    (∀ t ∈ ks1, t ∉ lastRow) → (∀ t ∈ ks1, t < axes.length) →
    ∃ axes1, legendsWalk lastRow (ks1 ++ ks2) hl axes = legendsWalk lastRow ks2 hl axes1 ∧
      axes1.length = axes.length ∧
      (∀ t, t ∉ ks1 → axes1[t]? = axes[t]?) ∧
      (∀ t ∈ ks1, axes1[t]? = (axes[t]?).map (fun ax => { ax with legend := none })) ∧
      (∀ i, (axes1.getD i default).artists = (axes.getD i default).artists) := by
  intro ks1
  induction ks1 with
  | nil =>
    intro ks2 hl axes _ _
    exact ⟨axes, rfl, rfl, fun t _ => rfl, fun t ht => absurd ht (List.not_mem_nil t),
      fun i => rfl⟩
  | cons t ts ih =>
    intro ks2 hl axes hout hb
    have htmem : t ∉ lastRow := hout t (List.mem_cons_self _ _)
    have htlt : t < axes.length := hb t (List.mem_cons_self _ _)
    have htsome : axes[t]? = some (axes.getD t default) := by
      rw [List.getD_eq_getElem?_getD, List.getElem?_eq_getElem htlt]
      simp
    have hstep : legendsWalk lastRow ((t :: ts) ++ ks2) hl axes =
        legendsWalk lastRow (ts ++ ks2) hl
          (axes.set t { axes.getD t default with legend := none }) := by
      rw [List.cons_append, legendsWalk, dif_neg htmem]
    set axes2 := axes.set t { axes.getD t default with legend := none } with haxes2
    have hb2 : ∀ u ∈ ts, u < axes2.length := by
      intro u hu
      rw [haxes2, List.length_set]
      exact hb u (List.mem_cons.mpr (Or.inr hu))
    obtain ⟨axes1, hw, hlen, hfr, hset, hart⟩ := ih ks2 hl axes2
      (fun u hu => hout u (List.mem_cons.mpr (Or.inr hu))) hb2
    have hfr2 : ∀ u, u ≠ t → axes2[u]? = axes[u]? := by
      intro u hu
      rw [haxes2, List.getElem?_set_ne (fun hc => hu hc.symm)]
    have htval : axes2[t]? = (axes[t]?).map (fun ax => { ax with legend := none }) := by
      rw [haxes2, List.getElem?_set, if_pos rfl, if_pos htlt, htsome, Option.map_some']
    have htnotts : t ∉ ts ∨ True := Or.inr trivial
    refine ⟨axes1, by rw [hstep, hw], by rw [hlen, haxes2, List.length_set], ?_, ?_, ?_⟩
    · intro u hu
      have hut : u ≠ t := fun hc => hu (hc ▸ List.mem_cons_self _ _)
      have huts : u ∉ ts := fun hc => hu (List.mem_cons.mpr (Or.inr hc))
      rw [hfr u huts, hfr2 u hut]
    · intro u hu
      by_cases huts : u ∈ ts
      · rw [hset u huts]
        by_cases hut : u = t
        · subst hut
          rw [htval]
          cases hk : axes[u]? with
          | none => rfl
          | some ax => rw [Option.map_some', Option.map_some']
        · rw [hfr2 u hut]
      · rcases List.mem_cons.mp hu with heq | hmem2
        · subst heq
          rw [hfr u huts, htval]
        · exact absurd hmem2 huts
    · intro i
      rw [hart i]
      by_cases hit : i = t
      · subst hit
        rw [List.getD_eq_getElem?_getD, htval, List.getD_eq_getElem?_getD]
        cases hk : axes[i]? with
        | none => rfl
        | some ax => rw [Option.map_some']; rfl
      · rw [List.getD_eq_getElem?_getD, hfr2 i hit, List.getD_eq_getElem?_getD]

theorem legendsRow_spec (axes : List NewAxes) (mat : List (List Nat)) (a k : Nat)
    (hflat : mat.flatten = List.range' a k) (hk : 0 < k) (hbound : a + k ≤ axes.length)
    (lastRow : List Nat) (hlr : mat.getLast? = some lastRow) (hlrne : lastRow ≠ []) :
    ∃ axes' le, legendsRow axes mat = .ok axes' ∧ axes'.length = axes.length ∧
      lastRow.getLast? = some le ∧
      axes'[le]? = (axes[le]?).map (fun ax =>
        { ax with legend := some (lastRow.flatMap
            (fun i => artistsHL ((axes.getD i default).artists))) }) ∧
      (∀ i ∈ mat.flatten, i ≠ le →
        axes'[i]? = (axes[i]?).map (fun ax => { ax with legend := none })) ∧
      (∀ i, i ∉ mat.flatten → axes'[i]? = axes[i]?) ∧
      (∀ i, (axes'.getD i default).artists = (axes.getD i default).artists) := by
  have hmne : mat ≠ [] := by
    intro h
    rw [h] at hlr
    exact Option.noConfusion hlr
  have hlast_eq : mat.getLast hmne = lastRow := by
    have h2 := List.getLast?_eq_getLast mat hmne
    rw [hlr] at h2
    exact (Option.some.inj h2).symm
  have hdecomp : mat = mat.dropLast ++ [lastRow] := by
    rw [← hlast_eq]
    exact (List.dropLast_concat_getLast hmne).symm
  have hflatsplit : mat.flatten = (mat.dropLast).flatten ++ lastRow := by
    conv_lhs => rw [hdecomp]
    exact List.flatten_concat _ _
  have hndflat : mat.flatten.Nodup := by
    rw [hflat]
    exact List.nodup_range' a k
  have hdisjlr : ∀ t ∈ (mat.dropLast).flatten, t ∉ lastRow := by
    have hd := List.disjoint_of_nodup_append (hflatsplit ▸ hndflat)
    exact fun t ht => hd ht
  have hlrnd : lastRow.Nodup := List.Nodup.of_append_right (hflatsplit ▸ hndflat)
  have hbmem : ∀ i ∈ mat.flatten, i < axes.length := by
    intro i hi
    rw [hflat] at hi
    obtain ⟨j, hj, hij⟩ := List.mem_range'.mp hi
    omega
  have hle : lastRow.getLast? = some (lastRow.getLast hlrne) :=
    List.getLast?_eq_getLast _ _
  have h0 : pyGet mat.flatten 0 = .ok a :=
    pyGet_ok.mpr (by rw [hflat, List.getElem?_range' a 1 hk]; simp)
  have h1 : pyGet mat.flatten (mat.flatten.length - 1) = .ok (a + (k - 1)) :=
    pyGet_ok.mpr (by
      rw [hflat, List.length_range', List.getElem?_range' a 1 (by omega : k - 1 < k)]
      simp)
  have h2 : pyGet mat (mat.length - 1) = .ok lastRow :=
    pyGet_ok.mpr (by rw [← List.getLast?_eq_getElem?]; exact hlr)
  have hks : List.range' a (min ((a + (k - 1)) + 1) axes.length - a) = mat.flatten := by
    rw [hflat]
    congr 1
    omega
  have hrun : legendsRow axes mat =
      .ok (legendsWalk lastRow mat.flatten [] axes) := by
    rw [legendsRow, h0, exbind_ok, h1, exbind_ok, h2, exbind_ok, hks]
  obtain ⟨axes1, hw, hlen1, hfr1, hset1, hart1⟩ :=
    legendsWalk_out lastRow (mat.dropLast).flatten lastRow [] axes hdisjlr
      (fun t ht => hbmem t (by rw [hflatsplit]; exact List.mem_append.mpr (Or.inl ht)))
  have hb2 : ∀ i ∈ lastRow, i < axes1.length := by
    intro i hi
    rw [hlen1]
    exact hbmem i (by rw [hflatsplit]; exact List.mem_append.mpr (Or.inr hi))
  obtain ⟨hlen2, hout2, hmid2, hle2⟩ :=
    legendsWalk_suffix lastRow hlrnd (lastRow.getLast hlrne) hle lastRow [] hlrne rfl
      [] axes1 hb2
  set le := lastRow.getLast hlrne with hledef
  set axes' := legendsWalk lastRow lastRow [] axes1 with haxes'
  have hwalkeq : legendsWalk lastRow mat.flatten [] axes = axes' := by
    conv_lhs => rw [hflatsplit]
    rw [hw]
  have hlemem : le ∈ lastRow := List.getLast_mem hlrne
  have hlenotinit : le ∉ (mat.dropLast).flatten := fun hc => hdisjlr le hc hlemem
  refine ⟨axes', le, by rw [hrun, hwalkeq], by rw [hlen2, hlen1], hle, ?_, ?_, ?_, ?_⟩
  · rw [hle2, hfr1 le hlenotinit]
    cases hv : axes[le]? with
    | none => rfl
    | some ax =>
      rw [Option.map_some', Option.map_some']
      have hflm : lastRow.flatMap (fun i => artistsHL ((axes1.getD i default).artists)) =
          lastRow.flatMap (fun i => artistsHL ((axes.getD i default).artists)) := by
        rw [List.flatMap_def, List.flatMap_def,
          List.map_congr_left (fun i _ => by rw [hart1 i])]
      rw [hflm]
      rfl
  · intro i hi hine
    rw [hflatsplit] at hi
    rcases List.mem_append.mp hi with hinit | hinlr
    · have hinotlr : i ∉ lastRow := hdisjlr i hinit
      rw [hout2 i hinotlr, hset1 i hinit]
    · rw [hmid2 i hinlr hine, hfr1 i (fun hc => hdisjlr i hc hinlr)]
  · intro i hi
    have hinotinit : i ∉ (mat.dropLast).flatten := by
      intro hc
      exact hi (by rw [hflatsplit]; exact List.mem_append.mpr (Or.inl hc))
    have hinotlr : i ∉ lastRow := by
      intro hc
      exact hi (by rw [hflatsplit]; exact List.mem_append.mpr (Or.inr hc))
    rw [hout2 i hinotlr, hfr1 i hinotinit]
  · intro i
    have hart2 : (axes'.getD i default).artists = (axes1.getD i default).artists := by
      by_cases hilr : i ∈ lastRow
      · by_cases hile : i = le
        · subst hile
          rw [List.getD_eq_getElem?_getD, hle2, List.getD_eq_getElem?_getD]
          cases hv : axes1[le]? with
          | none => rfl
          | some ax => rw [Option.map_some']; rfl
        · rw [List.getD_eq_getElem?_getD, hmid2 i hilr hile, List.getD_eq_getElem?_getD]
          cases hv : axes1[i]? with
          | none => rfl
          | some ax => rw [Option.map_some']; rfl
      · rw [List.getD_eq_getElem?_getD, hout2 i hilr, List.getD_eq_getElem?_getD]
    rw [hart2, hart1 i]

theorem legendsFold_spec (axes0 : List NewAxes) :
    ∀ (tens : Tens) (axes : List NewAxes),
    axes.length = axes0.length →
    (∀ mat ∈ tens, ∃ a k, 0 < k ∧ mat.flatten = List.range' a k ∧ a + k ≤ axes0.length) →
    (∀ mat ∈ tens, ∃ lr, mat.getLast? = some lr ∧ lr ≠ []) →
    (∀ mat ∈ tens, ∀ i ∈ mat.flatten, axes[i]? = axes0[i]?) →
    (∀ i, (axes.getD i default).artists = (axes0.getD i default).artists) →
    List.Pairwise (fun m m' => ∀ i ∈ m.flatten, i ∉ m'.flatten) tens →
    ∃ axes', tens.foldlM legendsRow axes = .ok axes' ∧ axes'.length = axes.length ∧
      (∀ i, (axes'.getD i default).artists = (axes0.getD i default).artists) ∧
      (∀ mat ∈ tens, ∃ lr le, mat.getLast? = some lr ∧ lr.getLast? = some le ∧
        axes'[le]? = (axes0[le]?).map (fun ax =>
          { ax with legend := some (lr.flatMap
              (fun i => artistsHL ((axes0.getD i default).artists))) }) ∧
        ∀ i ∈ mat.flatten, i ≠ le →
          axes'[i]? = (axes0[i]?).map (fun ax => { ax with legend := none })) ∧
      (∀ t, (∀ mat ∈ tens, t ∉ mat.flatten) → axes'[t]? = axes[t]?) := by
  intro tens
  induction tens with
  | nil =>
    intro axes hlen _ _ _ hart _
    exact ⟨axes, rfl, rfl, hart, by simp, fun t _ => rfl⟩
  | cons mat mats ih =>
    intro axes hlen hcontig hlaste hagree hart hdisj
    obtain ⟨a, k, hk, hflat, hbnd⟩ := hcontig mat (List.mem_cons_self _ _)
    obtain ⟨lr, hlr, hlrne⟩ := hlaste mat (List.mem_cons_self _ _)
    obtain ⟨hdhead, hdtail⟩ := List.pairwise_cons.mp hdisj
    obtain ⟨axes2, le, hrow, hlen2, hle, hleval, hmid, hout, hart2⟩ :=
      legendsRow_spec axes mat a k hflat hk (by rw [hlen]; exact hbnd) lr hlr hlrne
    have hlrmem : lr ∈ mat := by
      have hmne : mat ≠ [] := by
        intro h
        rw [h] at hlr
        exact Option.noConfusion hlr
      have h2 := List.getLast?_eq_getLast mat hmne
      rw [hlr] at h2
      exact (Option.some.inj h2) ▸ List.getLast_mem hmne
    have hlemem : le ∈ mat.flatten := by
      have hlelr : le ∈ lr := by
        have h2 := List.getLast?_eq_getLast lr hlrne
        rw [hle] at h2
        exact (Option.some.inj h2) ▸ List.getLast_mem hlrne
      exact List.mem_flatten.mpr ⟨lr, hlrmem, hlelr⟩
    have hagree2 : ∀ mat' ∈ mats, ∀ i ∈ mat'.flatten, axes2[i]? = axes0[i]? := by
      intro mat' hm' i hi
      rw [hout i (fun hc => hdhead mat' hm' i hc hi)]
      exact hagree mat' (List.mem_cons.mpr (Or.inr hm')) i hi
    have hart02 : ∀ i, (axes2.getD i default).artists = (axes0.getD i default).artists := by
      intro i
      rw [hart2 i, hart i]
    obtain ⟨axes', hfold, hlen', hart', hdone', hframe'⟩ := ih axes2
      (hlen2.trans hlen)
      (fun m hm => hcontig m (List.mem_cons.mpr (Or.inr hm)))
      (fun m hm => hlaste m (List.mem_cons.mpr (Or.inr hm)))
      hagree2 hart02 hdtail
    refine ⟨axes', ?_, by rw [hlen', hlen2], hart', ?_, ?_⟩
    · rw [List.foldlM_cons, hrow, exbind_ok]
      exact hfold
    · intro m hm
      rcases List.mem_cons.mp hm with heq | hm'
      · subst heq
        refine ⟨lr, le, hlr, hle, ?_, ?_⟩
        · rw [hframe' le (fun m2 hm2 hc => hdhead m2 hm2 le hlemem hc), hleval,
            hagree m (List.mem_cons_self _ _) le hlemem]
          cases hv : axes0[le]? with
          | none => rfl
          | some ax =>
            rw [Option.map_some', Option.map_some']
            have hflm : lr.flatMap (fun i => artistsHL ((axes.getD i default).artists)) =
                lr.flatMap (fun i => artistsHL ((axes0.getD i default).artists)) := by
              rw [List.flatMap_def, List.flatMap_def,
                List.map_congr_left (fun i _ => by rw [hart i])]
            rw [hflm]
        · intro i hi hine
          rw [hframe' i (fun m2 hm2 hc => hdhead m2 hm2 i hi hc), hmid i hi hine,
            hagree m (List.mem_cons_self _ _) i hi]
      · exact hdone' m hm'
    · intro t ht
      rw [hframe' t (fun m2 hm2 => ht m2 (List.mem_cons.mpr (Or.inr hm2))),
        hout t (ht mat (List.mem_cons_self _ _))]

/-- C3: after legends_only_last_subplot, within each row-group of the grid
index exactly the axis indexed by the last entry of the group's last subplot
carries a legend, built from the concatenated legend handle/label pairs of
all axes of that last subplot (in order), and every other axis of the
row-group has its legend removed.  The hypotheses say each row-group flattens
to a nonempty contiguous ascending block of valid axis indices and the
groups are pairwise disjoint, which holds for every grid index produced by
create_figure. -/
theorem legends_only_last_subplot_spec (fig : Figure) (tens : Tens)
    (hcontig : ∀ mat ∈ tens, ∃ a k, 0 < k ∧ mat.flatten = List.range' a k ∧
      a + k ≤ fig.axes.length)
    (hlaste : ∀ mat ∈ tens, ∃ lr, mat.getLast? = some lr ∧ lr ≠ [])
    (hdisj : List.Pairwise (fun m m' => ∀ i ∈ m.flatten, i ∉ m'.flatten) tens) :
    ∃ fig', legends_only_last_subplot fig tens = .ok fig' ∧
      fig'.axes.length = fig.axes.length ∧
      ∀ mat ∈ tens, ∃ lr le, mat.getLast? = some lr ∧ lr.getLast? = some le ∧
        (fig'.axes.getD le default).legend =
          some (lr.flatMap (fun i => getLegendHandlesLabels (fig.axes.getD i default))) ∧
        ∀ i ∈ mat.flatten, i ≠ le → (fig'.axes.getD i default).legend = none := by
  obtain ⟨axes', hfold, hlen, -, hdone, -⟩ :=
    legendsFold_spec fig.axes tens fig.axes rfl hcontig hlaste
      (fun _ _ _ _ => rfl) (fun _ => rfl) hdisj
  have hbmem : ∀ mat ∈ tens, ∀ i ∈ mat.flatten, i < fig.axes.length := by
    intro mat hmat i hi
    obtain ⟨a, k, hk, hflat, hbnd⟩ := hcontig mat hmat
    rw [hflat] at hi
    obtain ⟨j, hj, hij⟩ := List.mem_range'.mp hi
    omega
  refine ⟨{ fig with axes := axes' }, ?_, hlen, ?_⟩
  · rw [legends_only_last_subplot, hfold]
    rfl
  · intro mat hmat
    obtain ⟨lr, le, hlr, hle, hleval, hmid⟩ := hdone mat hmat
    have hlemem : le ∈ mat.flatten := by
      have hmne : mat ≠ [] := by
        intro h
        rw [h] at hlr
        exact Option.noConfusion hlr
      have hlrmem : lr ∈ mat := by
        have h2 := List.getLast?_eq_getLast mat hmne
        rw [hlr] at h2
        exact (Option.some.inj h2) ▸ List.getLast_mem hmne
      have hlrne : lr ≠ [] := by
        intro h
        rw [h] at hle
        exact Option.noConfusion hle
      have hlelr : le ∈ lr := by
        have h2 := List.getLast?_eq_getLast lr hlrne
        rw [hle] at h2
        exact (Option.some.inj h2) ▸ List.getLast_mem hlrne
      exact List.mem_flatten.mpr ⟨lr, hlrmem, hlelr⟩
    have hlelt : le < fig.axes.length := hbmem mat hmat le hlemem
    have hlesome : fig.axes[le]? = some (fig.axes.getD le default) := by
      rw [List.getD_eq_getElem?_getD, List.getElem?_eq_getElem hlelt]
      simp
    refine ⟨lr, le, hlr, hle, ?_, ?_⟩
    · have := hleval
      rw [hlesome, Option.map_some'] at this
      show (axes'.getD le default).legend = _
      rw [List.getD_eq_getElem?_getD, this]
      rfl
    · intro i hi hine
      have hilt : i < fig.axes.length := hbmem mat hmat i hi
      have hisome : fig.axes[i]? = some (fig.axes.getD i default) := by
        rw [List.getD_eq_getElem?_getD, List.getElem?_eq_getElem hilt]
        simp
      have := hmid i hi hine
      rw [hisome, Option.map_some'] at this
      show (axes'.getD i default).legend = none
      rw [List.getD_eq_getElem?_getD, this]
      rfl

def axL0 : NewAxes := { artists := [.plotLine [0] [1] "a" "r" "-"] }

def axL1 : NewAxes :=
  { artists := [.plotLine [0] [1] "b" "g" "-"], legend := some [] }

def figL : Figure := { figsize := (1, 1), axes := [axL0, axL1] }

theorem legends_only_last_subplot_spec_witness :
    ∃ fig', legends_only_last_subplot figL [[[0], [1]]] = .ok fig' ∧
      fig'.axes.length = figL.axes.length ∧
      ∀ mat ∈ ([[[0], [1]]] : Tens), ∃ lr le, mat.getLast? = some lr ∧
        lr.getLast? = some le ∧
        (fig'.axes.getD le default).legend =
          some (lr.flatMap (fun i => getLegendHandlesLabels (figL.axes.getD i default))) ∧
        ∀ i ∈ mat.flatten, i ≠ le → (fig'.axes.getD i default).legend = none :=
  legends_only_last_subplot_spec figL [[[0], [1]]]
    (by
      intro mat hm
      rw [List.mem_singleton] at hm
      subst hm
      exact ⟨0, 2, by decide, rfl, by decide⟩)
    (by
      intro mat hm
      rw [List.mem_singleton] at hm
      subst hm
      exact ⟨[1], rfl, by decide⟩)
    (by decide)

/-! ## C4 -/

theorem chunksGo_fuel {α : Type} (n : Nat) (hn : 0 < n) :
    ∀ (fuel1 : Nat) (l : List α) (fuel2 : Nat), l.length ≤ fuel1 → l.length ≤ fuel2 →
    chunksGo n fuel1 l = chunksGo n fuel2 l := by
  intro fuel1
  induction fuel1 with
  | zero =>
    intro l fuel2 h1 _
    have : l = [] := List.length_eq_zero.mp (Nat.le_zero.mp h1)
    subst this
    cases fuel2 <;> rfl
  | succ f ihf =>
    intro l fuel2 h1 h2
    cases l with
    | nil => cases fuel2 <;> rfl
    | cons x xs =>
      cases fuel2 with
      | zero => exact absurd h2 (by simp)
      | succ g =>
        rw [chunksGo, chunksGo]
        congr 1
        apply ihf
        · rw [List.length_drop]
          simp only [List.length_cons] at h1 ⊢
          omega
        · rw [List.length_drop]
          simp only [List.length_cons] at h2 ⊢
          omega

theorem chunks_flatten_rect {α : Type} (n : Nat) (hn : 0 < n) :
    ∀ (rows : List (List α)), (∀ r ∈ rows, r.length = n) →
    chunks n rows.flatten = rows := by
  intro rows
  induction rows with
  | nil => intro _; rfl
  | cons r rs ih =>
    intro hlen
    have hr : r.length = n := hlen r (List.mem_cons_self _ _)
    have hrest := ih (fun r2 hr2 => hlen r2 (List.mem_cons.mpr (Or.inr hr2)))
    have hrne : r ≠ [] := by
      intro hc
      rw [hc] at hr
      simp at hr
      omega
    have htake : (r ++ rs.flatten).take n = r := by
      rw [← hr]
      exact List.take_left r rs.flatten
    have hdrop : (r ++ rs.flatten).drop n = rs.flatten := by
      rw [← hr]
      exact List.drop_left r rs.flatten
    have hlenpos : 0 < (r ++ rs.flatten).length := by
      rw [List.length_append]
      cases r with
      | nil => exact absurd rfl hrne
      | cons a as => simp
    rw [List.flatten_cons, chunks]
    have hstep : chunksGo n (r ++ rs.flatten).length (r ++ rs.flatten) =
        (r ++ rs.flatten).take n ::
          chunksGo n ((r ++ rs.flatten).length - 1) ((r ++ rs.flatten).drop n) := by
      cases hflat : r ++ rs.flatten with
      | nil =>
        rw [hflat] at hlenpos
        simp at hlenpos
      | cons y ys => rfl
    rw [hstep, htake, hdrop]
    congr 1
    rw [chunksGo_fuel n hn _ rs.flatten rs.flatten.length
      (by rw [List.length_append]; omega) le_rfl]
    exact hrest

theorem flatten_length_rect {α : Type} (n : Nat) :
    ∀ (rows : List (List α)), (∀ r ∈ rows, r.length = n) →
    rows.flatten.length = rows.length * n := by
  intro rows
  induction rows with
  | nil => intro _; simp
  | cons r rs ih =>
    intro hlen
    rw [List.flatten_cons, List.length_append,
      hlen r (List.mem_cons_self _ _),
      ih (fun r2 h2 => hlen r2 (List.mem_cons.mpr (Or.inr h2)))]
    simp [List.length_cons]
    ring

theorem mapM_ok_of_all_ok {α β : Type} (f : α → Except String β) :
    ∀ (l : List α), (∀ a ∈ l, ∃ b, f a = .ok b) →
    ∃ bs : List β, l.mapM f = .ok bs ∧ bs.length = l.length := by
  intro l
  induction l with
  | nil => intro _; exact ⟨[], rfl, rfl⟩
  | cons a as ih =>
    intro hall
    obtain ⟨b, hb⟩ := hall a (List.mem_cons_self _ _)
    obtain ⟨bs, hbs, hlen⟩ := ih (fun a2 h2 => hall a2 (List.mem_cons.mpr (Or.inr h2)))
    refine ⟨b :: bs, ?_, by simp [hlen]⟩
    rw [List.mapM_cons, hb, exbind_ok, hbs, exbind_ok]
    rfl

theorem createFigurePre_ok (matFig : List (List OldFig)) (listSites : List String)
    (hn : 0 < listSites.length)
    (hrect : ∀ row ∈ matFig, row.length = listSites.length)
    (hmne : matFig ≠ []) :
    ∃ fig0, createFigurePre matFig listSites = .ok (matFig.reverse, fig0) ∧
      fig0.axes = [] := by
  have hshape : ∃ sh, npArray2dShape matFig = .ok sh := by
    cases matFig with
    | nil => exact absurd rfl hmne
    | cons r rs =>
      refine ⟨((r :: rs).length, r.length), ?_⟩
      rw [npArray2dShape, if_pos]
      apply List.all_eq_true.mpr
      intro row hrow
      simp only [decide_eq_true_eq]
      rw [hrect row (List.mem_cons.mpr (Or.inr hrow)),
        hrect r (List.mem_cons_self _ _)]
  obtain ⟨sh, hsh⟩ := hshape
  have hflatlen : matFig.flatten.length = matFig.length * listSites.length :=
    flatten_length_rect _ _ hrect
  have hreshape : npReshapeNeg1 matFig.flatten listSites.length = .ok matFig := by
    rw [npReshapeNeg1, if_neg, chunks_flatten_rect listSites.length hn matFig hrect]
    push_neg
    refine ⟨by omega, ?_⟩
    rw [hflatlen]
    exact Nat.mul_mod_left _ _
  have hrowne : ∀ row ∈ matFig.reverse, ∃ f : OldFig, pyGet row 0 = .ok f := by
    intro row hrow
    have hmem := List.mem_reverse.mp hrow
    have hlen : row.length = listSites.length := hrect row hmem
    have : 0 < row.length := by omega
    cases hrowc : row with
    | nil => rw [hrowc] at this; simp at this
    | cons f fs => exact ⟨f, pyGet_ok.mpr (by simp)⟩
  obtain ⟨ws, hws, hwslen⟩ := mapM_ok_of_all_ok
    (fun row => (pyGet row 0).map (fun f => f.size.1)) matFig.reverse
    (by
      intro row hrow
      obtain ⟨f, hf⟩ := hrowne row hrow
      exact ⟨f.size.1, by simp only [hf]; rfl⟩)
  obtain ⟨hs, hhs, hhslen⟩ := mapM_ok_of_all_ok
    (fun row => (pyGet row 0).map (fun f => f.size.2)) matFig.reverse
    (by
      intro row hrow
      obtain ⟨f, hf⟩ := hrowne row hrow
      exact ⟨f.size.2, by simp only [hf]; rfl⟩)
  have hwsne : ws ≠ [] := by
    intro hc
    rw [hc] at hwslen
    simp at hwslen
    exact hmne (by
      have := List.length_reverse matFig ▸ hwslen.symm
      exact List.length_eq_zero.mp (by omega))
  obtain ⟨wmax, hwmax⟩ := npMax_ok_of_ne_nil hwsne
  refine ⟨{ figsize := ((listSites.length : ℚ) * wmax, hs.sum), axes := [] }, ?_, rfl⟩
  rw [createFigurePre, hsh, exbind_ok, hreshape, exbind_ok]
  simp only [hws, exbind_ok, hwmax, hhs]

theorem except_isOk_exists {α : Type} {e : Except String α} (h : e.isOk = true) :
    ∃ v, e = .ok v := by
  cases e with
  | error err => exact Bool.noConfusion h
  | ok v => exact ⟨v, rfl⟩

theorem take_drop_prefix {α : Type} (l ext : List α) (s cnt : Nat)
    (h : s + cnt ≤ l.length) :
    ((l ++ ext).drop s).take cnt = (l.drop s).take cnt := by
  rw [List.drop_append_of_le_length (by omega)]
  rw [List.take_append_of_le_length (by rw [List.length_drop]; omega)]

theorem printRow_spec (pad : ℚ) (nrows ncols i : Nat) :
    ∀ (row : List OldFig) (j0 : Nat) (axes : List NewAxes),
    (∀ f ∈ row, (plot_same_new_figure f {}).isOk = true) →
    ∃ axesNew vecs, printRow pad nrows ncols i row j0 axes = .ok (axes ++ axesNew, vecs) ∧
      vecs.length = row.length ∧
      vecs.flatten = List.range' axes.length axesNew.length ∧
      ∀ t, t < row.length →
        ∃ base twins s,
          plot_same_new_figure (row.getD t default) {} = .ok (base, twins) ∧
          vecs.getD t [] = List.range' s (twins.length + 1) ∧
          s + (twins.length + 1) ≤ (axes ++ axesNew).length ∧
          ((axes ++ axesNew).drop s).take (twins.length + 1) =
            (base :: twins).map (fun ax =>
              { ax with position := cellRect pad nrows ncols i (j0 + t) }) := by
  intro row
  induction row with
  | nil =>
    intro j0 axes _
    exact ⟨[], [], by rw [List.append_nil]; rfl, rfl, by simp,
      fun t ht => absurd ht (by simp)⟩
  | cons f fs ih =>
    intro j0 axes hok
    obtain ⟨⟨base, twins⟩, hf⟩ :=
      except_isOk_exists (hok f (List.mem_cons_self _ _))
    set newAxes := (base :: twins).map (fun ax =>
      { ax with position := cellRect pad nrows ncols i j0 }) with hnewdef
    have hcell : cellAxes pad nrows ncols i j0 f = .ok newAxes := by
      rw [cellAxes, hf, exbind_ok]
    have hnewlen : newAxes.length = twins.length + 1 := by
      rw [hnewdef]
      simp
    obtain ⟨axesNew2, vecs2, hrec, hveclen, hflat2, hcells2⟩ :=
      ih (j0 + 1) (axes ++ newAxes)
        (fun g hg => hok g (List.mem_cons.mpr (Or.inr hg)))
    refine ⟨newAxes ++ axesNew2, List.range' axes.length newAxes.length :: vecs2,
      ?_, by simp [hveclen], ?_, ?_⟩
    · rw [printRow, hcell, exbind_ok, hrec, exbind_ok, ← List.append_assoc]
    · rw [List.flatten_cons, hflat2, List.length_append, List.length_append]
      rw [show axes.length + newAxes.length = axes.length + 1 * newAxes.length by ring]
      rw [List.range'_append]
      congr 1
      omega
    · intro t ht
      cases t with
      | zero =>
        refine ⟨base, twins, axes.length, ?_, ?_, ?_, ?_⟩
        · exact hf
        · show List.range' axes.length newAxes.length = _
          rw [hnewlen]
        · rw [List.length_append, List.length_append, ← hnewlen]
          omega
        · rw [List.drop_left, ← hnewlen, List.take_left]
          rfl
      | succ t' =>
        have ht' : t' < fs.length := by
          simp only [List.length_cons] at ht
          omega
        obtain ⟨b2, tw2, s2, hps, hvec, hbnd, hslice⟩ := hcells2 t' ht'
        refine ⟨b2, tw2, s2, ?_, ?_, ?_, ?_⟩
        · show plot_same_new_figure (fs.getD t' default) {} = _
          exact hps
        · show vecs2.getD t' [] = _
          exact hvec
        · rw [List.length_append] at hbnd ⊢
          rw [List.length_append] at hbnd
          rw [List.length_append]
          omega
        · rw [List.append_assoc] at hslice
          have harith : j0 + 1 + t' = j0 + (t' + 1) := by omega
          rw [harith] at hslice
          exact hslice

theorem printRows_spec (pad : ℚ) (nrows ncols : Nat) :
    ∀ (rows : List (List OldFig)) (i0 : Nat) (axes : List NewAxes),
    (∀ r ∈ rows, ∀ f ∈ r, (plot_same_new_figure f {}).isOk = true) →
    ∃ axesNew mats, printRows pad nrows ncols rows i0 axes = .ok (axes ++ axesNew, mats) ∧
      mats.length = rows.length ∧
      (∀ idx, idx < rows.length → (mats.getD idx []).length = (rows.getD idx []).length) ∧
      mats.flatten.flatten = List.range' axes.length axesNew.length ∧
      ∀ r t, r < rows.length → t < (rows.getD r []).length →
        ∃ base twins s,
          plot_same_new_figure ((rows.getD r []).getD t default) {} = .ok (base, twins) ∧
          ((mats.getD r []).getD t []) = List.range' s (twins.length + 1) ∧
          ((axes ++ axesNew).drop s).take (twins.length + 1) =
            (base :: twins).map (fun ax =>
              { ax with position := cellRect pad nrows ncols (i0 + r) t }) := by
  intro rows
  induction rows with
  | nil =>
    intro i0 axes _
    exact ⟨[], [], by rw [List.append_nil]; rfl, rfl,
      fun idx h => absurd h (by simp), by simp,
      fun r t hr _ => absurd hr (by simp)⟩
  | cons row rest ih =>
    intro i0 axes hok
    obtain ⟨axesNew1, vecs, hrow, hveclen, hflat1, hcells1⟩ :=
      printRow_spec pad nrows ncols i0 row 0 axes (hok row (List.mem_cons_self _ _))
    obtain ⟨axesNew2, mats2, hrest, hmatlen, hlens2, hflat2, hcells2⟩ :=
      ih (i0 + 1) (axes ++ axesNew1)
        (fun r hr => hok r (List.mem_cons.mpr (Or.inr hr)))
    refine ⟨axesNew1 ++ axesNew2, vecs :: mats2, ?_, by simp [hmatlen], ?_, ?_, ?_⟩
    · rw [printRows, hrow, exbind_ok]
      dsimp only
      rw [hrest, exbind_ok, ← List.append_assoc]
    · intro idx hidx
      cases idx with
      | zero => exact hveclen
      | succ idx' =>
        show (mats2.getD idx' []).length = (rest.getD idx' []).length
        exact hlens2 idx' (by simp only [List.length_cons] at hidx; omega)
    · rw [List.flatten_cons, List.flatten_append, hflat1, hflat2,
        List.length_append, List.length_append]
      rw [show axes.length + axesNew1.length = axes.length + 1 * axesNew1.length by ring]
      rw [List.range'_append]
      congr 1
      omega
    · intro r t hr ht
      cases r with
      | zero =>
        obtain ⟨base, twins, sx, hps, hvec, hbnd, hslice⟩ := hcells1 t ht
        refine ⟨base, twins, sx, hps, hvec, ?_⟩
        have harith : i0 + 0 = i0 := by omega
        rw [harith]
        rw [← List.append_assoc, take_drop_prefix (axes ++ axesNew1) axesNew2 sx _ hbnd]
        have h0t : 0 + t = t := by omega
        rw [h0t] at hslice
        exact hslice
      | succ r' =>
        have hr' : r' < rest.length := by
          simp only [List.length_cons] at hr
          omega
        obtain ⟨base, twins, s, hps, hvec, hslice⟩ := hcells2 r' t hr' ht
        refine ⟨base, twins, s, hps, hvec, ?_⟩
        rw [List.append_assoc] at hslice
        have harith : i0 + 1 + r' = i0 + (r' + 1) := by omega
        rw [harith] at hslice
        exact hslice

theorem getD_reverse {α : Type} (d : α) {l : List α} {i : Nat} (h : i < l.length) :
    l.reverse.getD i d = l.getD (l.length - 1 - i) d := by
  rw [List.getD_eq_getElem?_getD, List.getD_eq_getElem?_getD,
    List.getElem?_reverse h]

/-- C4: create_figure returns a grid index tens with the same row/column
shape as the (rectangular) input grid; the cell tens[i][j] is exactly the
contiguous block of indices, into the composed figure's axes list, of the
axes created while redrawing the input figure of row i and column j (the
replotted subplot axis followed by its twin axes, all moved to the cell
position); across all cells these blocks are disjoint and together cover
0 .. len(fig.axes)-1. -/
theorem create_figure_spec (matFig : List (List OldFig)) (listSites : List String)
    (pad : ℚ) (hn : 0 < listSites.length)
    (hrect : ∀ row ∈ matFig, row.length = listSites.length)
    (hmne : matFig ≠ [])
    (hredraw : ∀ row ∈ matFig, ∀ f ∈ row, (plot_same_new_figure f {}).isOk = true) :
    ∃ fig tens, create_figure matFig listSites pad = .ok (fig, tens) ∧
      tens.length = matFig.length ∧
      (∀ idx, idx < tens.length → (tens.getD idx []).length = listSites.length) ∧
      (tens.flatten.flatten).Perm (List.range fig.axes.length) ∧
      ∀ i j, i < matFig.length → j < listSites.length →
        ∃ base twins s,
          plot_same_new_figure ((matFig.getD i []).getD j default) {} = .ok (base, twins) ∧
          (tens.getD i []).getD j [] = List.range' s (twins.length + 1) ∧
          (fig.axes.drop s).take (twins.length + 1) =
            (base :: twins).map (fun ax => { ax with
              position := cellRect pad matFig.length listSites.length
                (matFig.length - 1 - i) j }) := by
  obtain ⟨fig0, hpre, hfig0axes⟩ := createFigurePre_ok matFig listSites hn hrect hmne
  have htempne : matFig.reverse ≠ [] := by
    intro hc
    exact hmne (by rw [← List.reverse_reverse matFig, hc]; rfl)
  have hncols : (matFig.reverse.headD []).length = listSites.length := by
    cases hr : matFig.reverse with
    | nil => exact absurd hr htempne
    | cons h t =>
      show h.length = _
      exact hrect h (List.mem_reverse.mp (by rw [hr]; exact List.mem_cons_self _ _))
  obtain ⟨axesNew, mats, hrows, hmatslen, hlens, hcover, hcells⟩ :=
    printRows_spec pad matFig.reverse.length (matFig.reverse.headD []).length
      matFig.reverse 0 fig0.axes
      (fun r hr => hredraw r (List.mem_reverse.mp hr))
  have hfig0nil : fig0.axes = [] := hfig0axes
  have haxes : fig0.axes ++ axesNew = axesNew := by rw [hfig0nil]; rfl
  have hprint : print_into_row_subplots matFig.reverse fig0 pad =
      .ok ({ fig0 with axes := axesNew }, mats.reverse) := by
    rw [print_into_row_subplots, hrows, exbind_ok, haxes]
  have hrun : create_figure matFig listSites pad =
      .ok ({ fig0 with axes := axesNew }, mats.reverse) := by
    rw [create_figure, hpre, exbind_ok]
    exact hprint
  have hm := matFig.length
  have hmatslen' : mats.length = matFig.length := by
    rw [hmatslen, List.length_reverse]
  have hcovnil : mats.flatten.flatten = List.range' 0 axesNew.length := by
    rw [hcover, hfig0nil]
    rfl
  refine ⟨{ fig0 with axes := axesNew }, mats.reverse, hrun,
    by rw [List.length_reverse, hmatslen'], ?_, ?_, ?_⟩
  · intro idx hidx
    rw [List.length_reverse] at hidx
    rw [getD_reverse [] (by omega : idx < mats.length)]
    have hidx2 : mats.length - 1 - idx < matFig.reverse.length := by
      rw [List.length_reverse]
      omega
    rw [hlens (mats.length - 1 - idx) hidx2]
    have hmem : matFig.reverse.getD (mats.length - 1 - idx) [] ∈ matFig.reverse := by
      rw [List.getD_eq_getElem?_getD, List.getElem?_eq_getElem hidx2]
      exact List.getElem_mem hidx2
    exact hrect _ (List.mem_reverse.mp hmem)
  · have hperm1 : (mats.reverse.flatten.flatten).Perm (mats.flatten.flatten) :=
      ((List.reverse_perm mats).flatten).flatten
    rw [hcovnil] at hperm1
    show (mats.reverse.flatten.flatten).Perm (List.range axesNew.length)
    rw [List.range_eq_range']
    exact hperm1
  · intro i j hi hj
    have hr : matFig.length - 1 - i < matFig.reverse.length := by
      rw [List.length_reverse]
      omega
    have hrowval : matFig.reverse.getD (matFig.length - 1 - i) [] = matFig.getD i [] := by
      rw [getD_reverse [] (by omega : matFig.length - 1 - i < matFig.length)]
      congr 1
      omega
    have ht : j < (matFig.reverse.getD (matFig.length - 1 - i) []).length := by
      rw [hrowval]
      have hmem : matFig.getD i [] ∈ matFig := by
        rw [List.getD_eq_getElem?_getD, List.getElem?_eq_getElem hi]
        exact List.getElem_mem hi
      rw [hrect _ hmem]
      exact hj
    obtain ⟨base, twins, s, hps, hvec, hslice⟩ :=
      hcells (matFig.length - 1 - i) j (by rw [List.length_reverse]; omega) ht
    refine ⟨base, twins, s, ?_, ?_, ?_⟩
    · rw [← hrowval]
      exact hps
    · rw [getD_reverse [] (by rw [hmatslen']; omega : i < mats.length)]
      rw [hmatslen']
      exact hvec
    · show ((axesNew.drop s).take (twins.length + 1)) = _
      rw [haxes] at hslice
      rw [hslice]
      have h0 : (0 : Nat) + (matFig.length - 1 - i) = matFig.length - 1 - i := by omega
      rw [h0, List.length_reverse, hncols]

def witMat : List (List OldFig) := [[oldFigA]]

def witSites : List String := ["A"]

theorem create_figure_spec_witness :
    ∃ fig tens, create_figure witMat witSites (3/100) = .ok (fig, tens) ∧
      tens.length = witMat.length ∧
      (∀ idx, idx < tens.length → (tens.getD idx []).length = witSites.length) ∧
      (tens.flatten.flatten).Perm (List.range fig.axes.length) ∧
      ∀ i j, i < witMat.length → j < witSites.length →
        ∃ base twins s,
          plot_same_new_figure ((witMat.getD i []).getD j default) {} = .ok (base, twins) ∧
          (tens.getD i []).getD j [] = List.range' s (twins.length + 1) ∧
          (fig.axes.drop s).take (twins.length + 1) =
            (base :: twins).map (fun ax => { ax with
              position := cellRect (3/100) witMat.length witSites.length
                (witMat.length - 1 - i) j }) :=
  create_figure_spec witMat witSites (3/100) (by decide) (by decide) (by decide)
    (by decide)
